import Mathlib

/-!
Verification of the ICTutor discussion forum.

This file gives a shallow embedding of the data model and of the operations of
the forum: the thread assembler of the thread page, the quote composer of the
reply form, and the Firestore-backed storage operations (votes, solutions,
cascading deletes) together with the route-level username handling.  Machine
integers are modelled by Nat and Int, nullable numeric fields by Option Nat,
fallible operations by Except, and the unbounded ancestor-chasing loop of the
thread assembler by a fuel-indexed function that returns none when the fuel
runs out (the source loop would still be running there).
-/

namespace ICTutor

/-- A reply document, following the replies table of the shared schema. -/
structure Reply where
  id : Nat
  content : String
  postId : Nat
  authorId : String
  createdAt : Nat
  parentReplyId : Option Nat
  upvotes : Int
  downvotes : Int
  isSolution : Bool
  deriving DecidableEq, Repr

/-- JavaScript truthiness of a nullable numeric field: null and 0 are falsy. -/
def truthyNum : Option Nat → Bool
  | none => false
  | some n => n != 0

/-- Ascending chronological order used by every sort in the thread assembler. -/
def byCreatedAt (a b : Reply) : Prop := a.createdAt ≤ b.createdAt

instance : DecidableRel byCreatedAt :=
  fun a b => inferInstanceAs (Decidable (a.createdAt ≤ b.createdAt))

instance : IsTotal Reply byCreatedAt := ⟨fun _ _ => Nat.le_total _ _⟩

instance : IsTrans Reply byCreatedAt := ⟨fun _ _ _ => Nat.le_trans⟩

/-- The stable ascending sort by creation time (Array.prototype.sort with the
timestamp comparator; any stable sort computes the same list). -/
def sortByCreatedAt (rs : List Reply) : List Reply :=
  List.insertionSort byCreatedAt rs

/-- The id-to-reply map built in one pass over the sorted replies; a later
entry overwrites an earlier one, which the reversed search mirrors. -/
def lookupReply (rs : List Reply) (i : Nat) : Option Reply :=
  rs.reverse.find? (fun r => r.id == i)

/-- Guard of the ancestor-chasing while loop:
currentParentId is truthy and the mapped reply has a truthy parent id. -/
def chaseGuard (rs : List Reply) (cur : Nat) : Bool :=
  cur != 0 && truthyNum ((lookupReply rs cur).bind Reply.parentReplyId)

/-- Body of the ancestor-chasing loop: the parent id of the current reply,
with falsy values collapsed to 0. -/
def chaseNext (rs : List Reply) (cur : Nat) : Nat :=
  ((lookupReply rs cur).bind Reply.parentReplyId).getD 0

/-- Fuel-indexed ancestor chase.  Runs the loop of the source for at most the
given number of iterations; returns none when the fuel is exhausted while the
guard still holds, in which case the source loop has not yet terminated. -/
def chase (rs : List Reply) : Nat → Nat → Option Nat
  | 0, cur => if chaseGuard rs cur then none else some cur
  | fuel + 1, cur =>
    if chaseGuard rs cur then chase rs fuel (chaseNext rs cur) else some cur

/-- The childReplies record: an association list from effective top-level
ancestor id to that bucket of replies, keys kept in first-insertion order. -/
abbrev Buckets := List (Nat × List Reply)

/-- childReplies[k].push(r), creating the bucket when it is absent. -/
def bucketPush (bs : Buckets) (k : Nat) (r : Reply) : Buckets :=
  match bs with
  | [] => [(k, [r])]
  | (k₁, v) :: t => if k₁ == k then (k₁, v ++ [r]) :: t else (k₁, v) :: bucketPush t k r

/-- One iteration of the classification loop of organizeRepliesIntoThreads:
a reply with a falsy parent id goes to the top level; a reply whose parent is
missing from the map or is itself top level goes to the bucket keyed by its
declared parent id; otherwise the ancestor chase finds the bucket key. -/
def placeReply (srt : List Reply) (fuel : Nat) (acc : List Reply × Buckets)
    (r : Reply) : Option (List Reply × Buckets) :=
  if !truthyNum r.parentReplyId then
    some (acc.1 ++ [r], acc.2)
  else if !truthyNum ((lookupReply srt (r.parentReplyId.getD 0)).bind Reply.parentReplyId) then
    some (acc.1, bucketPush acc.2 (r.parentReplyId.getD 0) r)
  else
    match chase srt fuel (r.parentReplyId.getD 0) with
    | none => none
    | some top => if top != 0 then some (acc.1, bucketPush acc.2 top r) else some acc

/-- The classification loop over the whole (sorted) reply list. -/
def placeAll (srt : List Reply) (fuel : Nat) :
    List Reply → List Reply × Buckets → Option (List Reply × Buckets)
  | [], acc => some acc
  | r :: rest, acc =>
    match placeReply srt fuel acc r with
    | none => none
    | some acc₁ => placeAll srt fuel rest acc₁

/-- organizeRepliesIntoThreads from the thread page: sort the replies
chronologically, classify each into the top level or a bucket, then sort the
top level and every bucket chronologically again.  The fuel bounds the
ancestor-chasing loop; none models a run of the source that does not
terminate within that bound. -/
def organizeRepliesIntoThreads (fuel : Nat) (replies : List Reply) :
    Option (List Reply × Buckets) :=
  match placeAll (sortByCreatedAt replies) fuel (sortByCreatedAt replies) ([], []) with
  | none => none
  | some (top, bs) =>
    some (sortByCreatedAt top, bs.map fun kb => (kb.1, sortByCreatedAt kb.2))

/-- All replies stored in the children buckets, in bucket order. -/
def bucketsJoin (bs : Buckets) : List Reply := (bs.map Prod.snd).flatten

/-- The bucket stored under a key, empty when the key is absent. -/
def bucketGet (bs : Buckets) (k : Nat) : List Reply :=
  ((bs.find? fun kb => kb.1 == k).map Prod.snd).getD []

/-- A reply with the fields that the thread assembler inspects. -/
def mkReply (id : Nat) (parent : Option Nat) (t : Nat) : Reply :=
  ⟨id, "", 1, "author", t, parent, 0, 0, false⟩

/-- The example reply list of the specification. -/
def exReplies : List Reply := [mkReply 1 none 1, mkReply 2 (some 1) 2, mkReply 3 (some 2) 3]

/-- Two replies naming each other as parent: a parent-reference cycle. -/
def cyclicReplies : List Reply := [mkReply 1 (some 2) 1, mkReply 2 (some 1) 2]

/-- A single reply whose declared parent id 42 matches no reply. -/
def orphanReply : Reply := mkReply 1 (some 42) 1

/-- Another broken-reference reply, used to instantiate the general statement. -/
def strayReply : Reply := mkReply 7 (some 42) 5

/-! ### Quote composer

The reply form of the thread page synthesizes a quoted excerpt of the reply
being responded to.  JavaScript strings are modelled as lists of characters,
so that length, take and split behave like their code-unit counterparts. -/

/-- A JavaScript string, as the list of its characters. -/
abbrev JStr := List Char

/-- includes with a single-character needle. -/
def jIncludes (s : JStr) (c : Char) : Bool := s.contains c

/-- startsWith with a single-character pattern. -/
def jStartsWith (s : JStr) (c : Char) : Bool :=
  match s with
  | [] => false
  | a :: _ => a == c

/-- split on a separator character. -/
def jSplit (sep : Char) : JStr → List JStr
  | [] => [[]]
  | c :: cs =>
    if c == sep then [] :: jSplit sep cs
    else
      match jSplit sep cs with
      | [] => [[c]]
      | h :: t => (c :: h) :: t

/-- join with a newline separator, the inverse of splitting on a newline. -/
def jJoinLines : List JStr → JStr
  | [] => []
  | l :: ls =>
    match ls with
    | [] => l
    | _ :: _ => l ++ '\n' :: jJoinLines ls

/-- The whitespace characters stripped by trim. -/
def jsWhitespace (c : Char) : Bool := c == ' ' || c == '\n' || c == '\t' || c == '\r'

/-- trim: strip whitespace from both ends. -/
def jTrim (s : JStr) : JStr :=
  ((s.dropWhile jsWhitespace).reverse.dropWhile jsWhitespace).reverse

/-- findIndex over the lines, as an optional index. -/
def jFindIdx (p : JStr → Bool) : List JStr → Option Nat
  | [] => none
  | l :: ls => if p l then some 0 else (jFindIdx p ls).map (· + 1)

/-- The maximum length of a quoted excerpt. -/
def quoteLimit : Nat := 100

/-- Quote extraction of createReply in the thread page: when the target text
contains an at-sign and a quote marker and has a line beginning with the
quote marker, drop every line up to and including the first run of quote
lines and trim the remaining text; otherwise keep the text unchanged. -/
def stripQuote (text : JStr) : JStr :=
  if jIncludes text '@' && jIncludes text '>' then
    match jFindIdx (fun l => jStartsWith l '>') (jSplit '\n' text) with
    | some qs =>
      jTrim (jJoinLines (((jSplit '\n' text).drop qs).dropWhile fun l => jStartsWith l '>'))
    | none => text
  else text

/-- Truncation of the quoted excerpt to the maximum length with an ellipsis. -/
def truncateQuote (s : JStr) : JStr :=
  if quoteLimit < s.length then s.take quoteLimit ++ ['.', '.', '.'] else s

/-- The composed reply body: at-mention line, quote line, blank line, then the
newly written text. -/
def composeQuotedReply (username content target : JStr) : JStr :=
  '@' :: username ++ ':' :: '\n' :: '>' :: ' ' ::
    truncateQuote (stripQuote target) ++ '\n' :: '\n' :: content

/-- The username, new text, and quoted target of the nesting scenario: the
target is a plain reply body that itself begins with a quote marker. -/
def quoteUser : JStr := ['u']

/-- The new text typed by the second author. -/
def quoteNewText : JStr := ['n', 'e', 'w']

/-- The target body beginning with a quote marker and containing no at-sign. -/
def quoteTarget : JStr := ['>', ' ', 'h', 'i']

/-- A 120-character text, longer than the quote limit. -/
def longQuoteText : JStr := List.replicate 120 'a'

/-- A target that already contains a composed quote block. -/
def strippableTarget : JStr :=
  ['@', 'a', ':', '\n', '>', ' ', 'q', '\n', '\n', 'r', 'e', 's', 't']

/-- The number of leading quote markers of a line, skipping interleaved
spaces: the display nesting depth of the line. -/
def leadingQuoteDepth : JStr → Nat
  | '>' :: cs => leadingQuoteDepth cs + 1
  | ' ' :: cs => leadingQuoteDepth cs
  | _ => 0

/-! ### Storage model

The Firestore collections are modelled as lists of documents; a document
update maps the entry carrying the document key, a batch delete filters, and
queries search the list. -/

/-- A user document (users table of the shared schema). -/
structure User where
  id : String
  username : String
  email : String
  deriving DecidableEq, Repr

/-- A post document (posts table of the shared schema). -/
structure Post where
  id : Nat
  title : String
  content : String
  category : String
  authorId : String
  createdAt : Nat
  upvotes : Int
  downvotes : Int
  solutionId : Option Nat
  deriving DecidableEq, Repr

/-- A vote document (votes table of the shared schema): exactly one of the
two target references is meant to be set. -/
structure Vote where
  id : Nat
  userId : String
  postId : Option Nat
  replyId : Option Nat
  voteType : String
  deriving DecidableEq, Repr

/-- The vote payload accepted by createVote. -/
structure InsertVote where
  userId : String
  postId : Option Nat
  replyId : Option Nat
  voteType : String
  deriving DecidableEq, Repr

/-- The Firestore state: one collection per entity. -/
structure DB where
  users : List User
  posts : List Post
  replies : List Reply
  votes : List Vote
  deriving DecidableEq, Repr

/-- Document lookup by id in the posts collection (the replyCount decoration
of getPost is dropped: no verified operation reads it). -/
def getPostDoc (db : DB) (pid : Nat) : Option Post :=
  db.posts.find? fun p => p.id == pid

/-- Document lookup by id in the replies collection. -/
def getReplyDoc (db : DB) (rid : Nat) : Option Reply :=
  db.replies.find? fun r => r.id == rid

/-- Document lookup by id in the votes collection. -/
def getVoteDoc (db : DB) (vid : Nat) : Option Vote :=
  db.votes.find? fun v => v.id == vid

/-- Document lookup by id in the users collection. -/
def getUserDoc (db : DB) (uid : String) : Option User :=
  db.users.find? fun u => u.id == uid

/-- getUserByUsername: first user carrying the username. -/
def getUserByUsername (db : DB) (name : String) : Option User :=
  db.users.find? fun u => u.username == name

/-- A field update on the post document with the given id. -/
def modifyPost (db : DB) (pid : Nat) (f : Post → Post) : DB :=
  { db with posts := db.posts.map fun p => if p.id == pid then f p else p }

/-- A field update on the reply document with the given id. -/
def modifyReply (db : DB) (rid : Nat) (f : Reply → Reply) : DB :=
  { db with replies := db.replies.map fun r => if r.id == rid then f r else r }

/-- A field update on the vote document with the given id. -/
def modifyVote (db : DB) (vid : Nat) (f : Vote → Vote) : DB :=
  { db with votes := db.votes.map fun v => if v.id == vid then f v else v }

/-- A field update on the user document with the given id. -/
def modifyUser (db : DB) (uid : String) (f : User → User) : DB :=
  { db with users := db.users.map fun u => if u.id == uid then f u else u }

/-- doc(id).set(user): replace the document when the key exists, else add it. -/
def setUserDoc (db : DB) (u : User) : DB :=
  if db.users.any fun w => w.id == u.id then
    { db with users := db.users.map fun w => if w.id == u.id then u else w }
  else { db with users := db.users ++ [u] }

/-- createUser of the Firestore storage: store the document as given, with no
uniqueness check of the username. -/
def createUser (db : DB) (u : User) : User × DB := (u, setUserDoc db u)

/-- updateUsername of the Firestore storage. -/
def updateUsername (db : DB) (userId : String) (username : String) :
    Except String (User × DB) :=
  match getUserDoc db userId with
  | none => .error "User not found"
  | some u =>
    .ok ({ u with username := username },
         modifyUser db userId fun w => { w with username := username })

/-- The PATCH username route: zod length validation, taken-name check, then
the storage update; every failure is answered with status 400. -/
def patchUsername (db : DB) (userId : String) (username : String) :
    Except Nat (User × DB) :=
  if username.length < 3 || 30 < username.length then .error 400
  else
    match getUserByUsername db username with
    | some _ => .error 400
    | none =>
      match updateUsername db userId username with
      | .error _ => .error 400
      | .ok res => .ok res

/-- deletePost: ownership check, then one batch deleting the replies with
this postId, the votes with this postId, and the post itself. -/
def deletePost (db : DB) (id : Nat) (authorId : String) : Except String DB :=
  match getPostDoc db id with
  | none => .error "Post not found"
  | some post =>
    if post.authorId != authorId then
      .error "Unauthorized: You can only delete your own posts"
    else
      .ok { db with
        replies := db.replies.filter fun r => r.postId != id
        votes := db.votes.filter fun v => v.postId != some id
        posts := db.posts.filter fun p => p.id != id }

/-- deleteReply: ownership check; when the reply is the solution of its post,
clear the solution reference; then one batch deleting the votes with this
replyId and the reply itself. -/
def deleteReply (db : DB) (id : Nat) (authorId : String) : Except String DB :=
  match getReplyDoc db id with
  | none => .error "Reply not found"
  | some reply =>
    if reply.authorId != authorId then
      .error "Unauthorized: You can only delete your own replies"
    else
      let db₁ :=
        if reply.postId != 0 then
          match getPostDoc db reply.postId with
          | some post =>
            if post.solutionId == some id then
              modifyPost db reply.postId fun p => { p with solutionId := none }
            else db
          | none => db
        else db
      .ok { db₁ with
        votes := db₁.votes.filter fun v => v.replyId != some id
        replies := db₁.replies.filter fun r => r.id != id }

/-- getVote: first vote of the user on the given target; asking with neither
target set is an error, a missing vote is a normal absence. -/
def getVote (db : DB) (userId : String) (postId replyId : Option Nat) :
    Except String (Option Vote) :=
  if truthyNum postId then
    .ok (db.votes.find? fun v => v.userId == userId && v.postId == postId)
  else if truthyNum replyId then
    .ok (db.votes.find? fun v => v.userId == userId && v.replyId == replyId)
  else .error "Either postId or replyId must be provided"

/-- The id assigned to a fresh document: one more than the largest stored id. -/
def maxId (ids : List Nat) : Nat := ids.foldr max 0

/-- The id of the next vote document. -/
def nextVoteId (db : DB) : Nat := maxId (db.votes.map Vote.id) + 1

/-- The or-null normalization applied to the target references of a new vote. -/
def orNull (o : Option Nat) : Option Nat := if truthyNum o then o else none

/-- updateVote: when the type changes, write the decremented old counter and
the incremented new counter of the target (both computed from the one read,
the decrement clamped at zero), then write the new vote type. -/
def updateVote (db : DB) (voteId : Nat) (voteType : String) :
    Except String (Vote × DB) :=
  match getVoteDoc db voteId with
  | none => .error "Vote not found"
  | some vote =>
    let db₁ :=
      if vote.voteType != voteType then
        if truthyNum vote.postId then
          let pid := vote.postId.getD 0
          match getPostDoc db pid with
          | some post =>
            let dbDec :=
              if vote.voteType == "upvote" then
                modifyPost db pid fun p => { p with upvotes := max 0 (post.upvotes - 1) }
              else
                modifyPost db pid fun p => { p with downvotes := max 0 (post.downvotes - 1) }
            if voteType == "upvote" then
              modifyPost dbDec pid fun p => { p with upvotes := post.upvotes + 1 }
            else
              modifyPost dbDec pid fun p => { p with downvotes := post.downvotes + 1 }
          | none => db
        else if truthyNum vote.replyId then
          let rid := vote.replyId.getD 0
          match getReplyDoc db rid with
          | some reply =>
            let dbDec :=
              if vote.voteType == "upvote" then
                modifyReply db rid fun r => { r with upvotes := max 0 (reply.upvotes - 1) }
              else
                modifyReply db rid fun r => { r with downvotes := max 0 (reply.downvotes - 1) }
            if voteType == "upvote" then
              modifyReply dbDec rid fun r => { r with upvotes := reply.upvotes + 1 }
            else
              modifyReply dbDec rid fun r => { r with downvotes := reply.downvotes + 1 }
          | none => db
        else db
      else db
    .ok ({ vote with voteType := voteType },
         modifyVote db₁ voteId fun v => { v with voteType := voteType })

/-- createVote: update in place when a vote of the other type exists, return
the stored vote unchanged when an identical one exists, otherwise insert a
fresh vote and increment the matching counter of the target. -/
def createVote (db : DB) (v : InsertVote) : Except String (Vote × DB) :=
  match getVote db v.userId v.postId v.replyId with
  | .error e => .error e
  | .ok (some existing) =>
    if existing.voteType != v.voteType then updateVote db existing.id v.voteType
    else .ok (existing, db)
  | .ok none =>
    let newVote : Vote :=
      ⟨nextVoteId db, v.userId, orNull v.postId, orNull v.replyId, v.voteType⟩
    let db₁ := { db with votes := db.votes ++ [newVote] }
    let db₂ :=
      if truthyNum v.postId then
        let pid := v.postId.getD 0
        match getPostDoc db₁ pid with
        | some post =>
          if v.voteType == "upvote" then
            modifyPost db₁ pid fun p => { p with upvotes := post.upvotes + 1 }
          else
            modifyPost db₁ pid fun p => { p with downvotes := post.downvotes + 1 }
        | none => db₁
      else if truthyNum v.replyId then
        let rid := v.replyId.getD 0
        match getReplyDoc db₁ rid with
        | some reply =>
          if v.voteType == "upvote" then
            modifyReply db₁ rid fun r => { r with upvotes := reply.upvotes + 1 }
          else
            modifyReply db₁ rid fun r => { r with downvotes := reply.downvotes + 1 }
        | none => db₁
      else db₁
    .ok (newVote, db₂)

/-- markAsSolution: the reply must belong to the post; the previous solution
reply, when one is referenced, loses its flag; the new reply gains the flag
and the post keeps its id. -/
def markAsSolution (db : DB) (postId replyId : Nat) : Except String DB :=
  match getPostDoc db postId with
  | none => .error "Post not found"
  | some post =>
    match getReplyDoc db replyId with
    | none => .error "Reply not found or does not belong to this post"
    | some reply =>
      if reply.postId != postId then
        .error "Reply not found or does not belong to this post"
      else
        let db₁ :=
          if truthyNum post.solutionId then
            match getReplyDoc db (post.solutionId.getD 0) with
            | some old => modifyReply db old.id fun r => { r with isSolution := false }
            | none => db
          else db
        let db₂ := modifyReply db₁ replyId fun r => { r with isSolution := true }
        .ok (modifyPost db₂ postId fun p => { p with solutionId := some replyId })

/-- removeSolution: clear the flag of the referenced solution reply, when one
exists, and clear the reference of the post. -/
def removeSolution (db : DB) (postId : Nat) : Except String DB :=
  match getPostDoc db postId with
  | none => .error "Post not found"
  | some post =>
    if truthyNum post.solutionId then
      let db₁ :=
        match getReplyDoc db (post.solutionId.getD 0) with
        | some sol => modifyReply db sol.id fun r => { r with isSolution := false }
        | none => db
      .ok (modifyPost db₁ postId fun p => { p with solutionId := none })
    else .ok db

/-! ### Invariants and fixtures -/

/-- Well-formed identifiers: document ids are unique within a collection and
nonzero (serial ids start at one). -/
@[reducible] def IdsWF (db : DB) : Prop :=
  (db.posts.map Post.id).Nodup ∧ (db.replies.map Reply.id).Nodup ∧
  (∀ p ∈ db.posts, p.id ≠ 0) ∧ (∀ r ∈ db.replies, r.id ≠ 0)

/-- The solution invariant: ids are well formed and every reply carrying the
solution flag is the one referenced by the solutionId of its own post. -/
@[reducible] def SolutionInv (db : DB) : Prop :=
  IdsWF db ∧
  ∀ r ∈ db.replies, r.isSolution = true →
    ∃ p ∈ db.posts, p.id = r.postId ∧ p.solutionId = some r.id

/-- One successful solution-related transition: marking a solution, removing
one, or deleting a reply. -/
def SolStep (db db₁ : DB) : Prop :=
  (∃ pid rid, markAsSolution db pid rid = .ok db₁) ∨
  (∃ pid, removeSolution db pid = .ok db₁) ∨
  (∃ rid uid, deleteReply db rid uid = .ok db₁)

/-- A post fixture with all counters at zero and no solution. -/
def mkPost (id : Nat) (authorId : String) (solutionId : Option Nat) : Post :=
  ⟨id, "title", "content", "hardware", authorId, 1, 0, 0, solutionId⟩

/-- A reply fixture belonging to a given post. -/
def mkReplyOn (id postId : Nat) (authorId : String) (flag : Bool) : Reply :=
  ⟨id, "reply", postId, authorId, 2, none, 0, 0, flag⟩

/-- A state with one post, one reply on it, and one vote on that reply. -/
def c3db : DB :=
  { users := [], posts := [mkPost 1 "alice" none],
    replies := [mkReplyOn 1 1 "bob" false],
    votes := [⟨1, "carol", none, some 1, "upvote"⟩] }

/-- A state whose stored upvote sits next to an upvote counter that already
reads zero (the drift the reference implementation admits). -/
def c4db : DB :=
  { users := [], posts := [mkPost 1 "alice" none], replies := [],
    votes := [⟨1, "umar", some 1, none, "upvote"⟩] }

/-- The switch request of the drifted-counter scenario. -/
def c4switch : InsertVote := ⟨"umar", some 1, none, "downvote"⟩

/-- A healthy state used to instantiate the voting statements: one post with
one stored upvote and matching counters. -/
def c4wdb : DB :=
  { users := [], posts := [⟨1, "title", "content", "hardware", "alice", 1, 1, 0, none⟩],
    replies := [], votes := [⟨1, "umar", some 1, none, "upvote"⟩] }

/-- A state with one post and one unflagged reply, satisfying the solution
invariant. -/
def c5db : DB :=
  { users := [], posts := [mkPost 1 "alice" none],
    replies := [mkReplyOn 2 1 "bob" false], votes := [] }

/-- The state reached from the previous one by marking reply 2 as solution. -/
def c5db₁ : DB :=
  { users := [], posts := [mkPost 1 "alice" (some 2)],
    replies := [mkReplyOn 2 1 "bob" true], votes := [] }

/-- A state whose reply 2 is the flagged solution of post 1 and carries one
vote. -/
def c9db : DB :=
  { users := [], posts := [mkPost 1 "alice" (some 2)],
    replies := [mkReplyOn 2 1 "bob" true],
    votes := [⟨1, "carol", none, some 2, "upvote"⟩] }

/-- The state left by deleting post 1 of the previous state: the orphaned
vote on reply 1 is still stored. -/
def c3db₁ : DB :=
  { users := [], posts := [], replies := [],
    votes := [⟨1, "carol", none, some 1, "upvote"⟩] }

/-- The state left by the drifted-counter switch: the upvote counter still
reads zero and the downvote counter reads one. -/
def c4db₁ : DB :=
  { users := [], posts := [⟨1, "title", "content", "hardware", "alice", 1, 0, 1, none⟩],
    replies := [], votes := [⟨1, "umar", some 1, none, "downvote"⟩] }

/-- The state left by the author deleting solution reply 2: the solution
reference of post 1 is cleared and the vote on the reply is gone. -/
def c9db₁ : DB :=
  { users := [], posts := [mkPost 1 "alice" none], replies := [], votes := [] }

/-- The stored upvote of the healthy voting state. -/
def c4wvote : Vote := ⟨1, "umar", some 1, none, "upvote"⟩

/-- A repeat of the stored vote, identical in type. -/
def c4up : InsertVote := ⟨"umar", some 1, none, "upvote"⟩

/-- The state left by switching the healthy upvote to a downvote: one unit
moved from the upvote counter to the downvote counter. -/
def c4wdb₁ : DB :=
  { users := [], posts := [⟨1, "title", "content", "hardware", "alice", 1, 0, 1, none⟩],
    replies := [], votes := [⟨1, "umar", some 1, none, "downvote"⟩] }

/-- The empty state. -/
def emptyDB : DB := { users := [], posts := [], replies := [], votes := [] }

/-- Two user payloads sharing a username under distinct identity-provider
ids. -/
def u₁ : User := ⟨"uid-one", "SameName", "one@mail"⟩

/-- The second user payload with the same username. -/
def u₂ : User := ⟨"uid-two", "SameName", "two@mail"⟩

/-- Distinct usernames across the stored users. -/
def UniqueUsernames (db : DB) : Prop :=
  ∀ w₁ ∈ db.users, ∀ w₂ ∈ db.users, w₁.username = w₂.username → w₁ = w₂

/-! ## Thread assembler: partition, ordering, broken references, termination -/

theorem sortByCreatedAt_perm (rs : List Reply) : (sortByCreatedAt rs).Perm rs :=
  List.perm_insertionSort byCreatedAt rs

theorem sortByCreatedAt_sorted (rs : List Reply) :
    (sortByCreatedAt rs).Sorted byCreatedAt :=
  List.sorted_insertionSort byCreatedAt rs

theorem truthyNum_getD_ne_zero {o : Option Nat} (h : truthyNum o = true) :
    o.getD 0 ≠ 0 := by
  cases o with
  | none => simp [truthyNum] at h
  | some n => simpa [truthyNum] using h

theorem chaseGuard_truthy {rs : List Reply} {cur : Nat}
    (h : chaseGuard rs cur = true) :
    truthyNum ((lookupReply rs cur).bind Reply.parentReplyId) = true := by
  simp only [chaseGuard, Bool.and_eq_true] at h
  exact h.2

theorem chaseNext_ne_zero {rs : List Reply} {cur : Nat}
    (h : chaseGuard rs cur = true) : chaseNext rs cur ≠ 0 :=
  truthyNum_getD_ne_zero (chaseGuard_truthy h)

theorem chase_ne_zero (rs : List Reply) :
    ∀ fuel cur t, cur ≠ 0 → chase rs fuel cur = some t → t ≠ 0 := by
  intro fuel
  induction fuel with
  | zero =>
    intro cur t hc h
    unfold chase at h
    split at h
    · exact absurd h (by simp)
    · injection h with h
      exact h ▸ hc
  | succ fuel ih =>
    intro cur t hc h
    unfold chase at h
    split at h
    case isTrue hg => exact ih (chaseNext rs cur) t (chaseNext_ne_zero hg) h
    case isFalse hg =>
      injection h with h
      exact h ▸ hc

theorem bucketsJoin_bucketPush (bs : Buckets) (k : Nat) (r : Reply) :
    (bucketsJoin (bucketPush bs k r)).Perm (bucketsJoin bs ++ [r]) := by
  induction bs with
  | nil => simp [bucketPush, bucketsJoin]
  | cons kb t ih =>
    obtain ⟨k₁, v⟩ := kb
    by_cases h : (k₁ == k) = true
    · simp only [bucketPush, h, if_true, bucketsJoin, List.map_cons, List.flatten_cons]
      rw [List.append_assoc, List.append_assoc]
      exact List.Perm.append_left v List.perm_append_comm
    · simp only [bucketPush, h, if_false, Bool.false_eq_true, bucketsJoin, List.map_cons,
        List.flatten_cons]
      have h₂ := List.Perm.append_left v ih
      rw [← List.append_assoc] at h₂
      exact h₂

theorem placeReply_some_perm {srt : List Reply} {fuel : Nat}
    {acc acc₁ : List Reply × Buckets} {r : Reply}
    (h : placeReply srt fuel acc r = some acc₁) :
    (acc₁.1 ++ bucketsJoin acc₁.2).Perm ((acc.1 ++ bucketsJoin acc.2) ++ [r]) := by
  unfold placeReply at h
  split at h
  · injection h with h
    subst h
    dsimp only
    rw [List.append_assoc, List.append_assoc]
    exact List.Perm.append_left acc.1 List.perm_append_comm
  case isFalse h₁ =>
    split at h
    · injection h with h
      subst h
      dsimp only
      have h₂ := List.Perm.append_left acc.1
        (bucketsJoin_bucketPush acc.2 (r.parentReplyId.getD 0) r)
      rw [List.append_assoc]
      exact h₂
    · split at h
      · exact Option.noConfusion h
      case h_2 top hc =>
        have hpid : r.parentReplyId.getD 0 ≠ 0 := by
          refine truthyNum_getD_ne_zero ?_
          simpa using h₁
        have htop : top ≠ 0 := chase_ne_zero srt fuel _ top hpid hc
        rw [if_pos (by simpa using htop)] at h
        injection h with h
        subst h
        dsimp only
        have h₂ := List.Perm.append_left acc.1 (bucketsJoin_bucketPush acc.2 top r)
        rw [List.append_assoc]
        exact h₂

theorem placeAll_some_perm {srt : List Reply} {fuel : Nat} :
    ∀ (l : List Reply) (acc acc₁ : List Reply × Buckets),
      placeAll srt fuel l acc = some acc₁ →
      (acc₁.1 ++ bucketsJoin acc₁.2).Perm ((acc.1 ++ bucketsJoin acc.2) ++ l) := by
  intro l
  induction l with
  | nil =>
    intro acc acc₁ h
    injection h with h
    subst h
    simp
  | cons r rest ih =>
    intro acc acc₁ h
    unfold placeAll at h
    split at h
    · exact Option.noConfusion h
    case h_2 accm hm =>
      refine (ih accm acc₁ h).trans ?_
      refine ((placeReply_some_perm hm).append_right rest).trans ?_
      rw [List.append_assoc, List.singleton_append]

theorem bucketsJoin_map_sort (bs : Buckets) :
    (bucketsJoin (bs.map fun kb => (kb.1, sortByCreatedAt kb.2))).Perm (bucketsJoin bs) := by
  induction bs with
  | nil => simp [bucketsJoin]
  | cons kb t ih =>
    simp only [bucketsJoin, List.map_cons, List.flatten_cons] at ih ⊢
    exact (sortByCreatedAt_perm kb.2).append ih

theorem bucketPush_keys_mem {bs : Buckets} {k : Nat} {r : Reply} {x : Nat}
    (h : x ∈ (bucketPush bs k r).map Prod.fst) :
    x = k ∨ x ∈ bs.map Prod.fst := by
  induction bs with
  | nil =>
    simp [bucketPush] at h
    exact Or.inl h
  | cons kb t ih =>
    obtain ⟨k₁, v⟩ := kb
    by_cases hk : (k₁ == k) = true
    · simp only [bucketPush, hk, if_true, List.map_cons, List.mem_cons] at h
      rcases h with h | h
      · exact Or.inr (by simp [h])
      · exact Or.inr (by simp [h])
    · simp only [bucketPush, hk, if_false, Bool.false_eq_true, List.map_cons,
        List.mem_cons] at h
      rcases h with h | h
      · exact Or.inr (by simp [h])
      · rcases ih h with h | h
        · exact Or.inl h
        · exact Or.inr (by simp [h])

theorem bucketPush_keys_nodup {bs : Buckets} {k : Nat} {r : Reply}
    (h : (bs.map Prod.fst).Nodup) : ((bucketPush bs k r).map Prod.fst).Nodup := by
  induction bs with
  | nil => simp [bucketPush]
  | cons kb t ih =>
    obtain ⟨k₁, v⟩ := kb
    simp only [List.map_cons, List.nodup_cons] at h
    by_cases hk : (k₁ == k) = true
    · simp only [bucketPush, hk, if_true, List.map_cons, List.nodup_cons]
      exact ⟨h.1, h.2⟩
    · simp only [bucketPush, hk, if_false, Bool.false_eq_true, List.map_cons,
        List.nodup_cons]
      refine ⟨fun hmem => ?_, ih h.2⟩
      rcases bucketPush_keys_mem hmem with rfl | hmem
      · simp at hk
      · exact h.1 hmem

theorem placeReply_keys_nodup {srt : List Reply} {fuel : Nat}
    {acc acc₁ : List Reply × Buckets} {r : Reply}
    (h : placeReply srt fuel acc r = some acc₁)
    (hn : (acc.2.map Prod.fst).Nodup) : (acc₁.2.map Prod.fst).Nodup := by
  unfold placeReply at h
  split at h
  · injection h with h
    subst h
    exact hn
  · split at h
    · injection h with h
      subst h
      exact bucketPush_keys_nodup hn
    · split at h
      · exact Option.noConfusion h
      · split at h <;> injection h with h <;> subst h
        · exact bucketPush_keys_nodup hn
        · exact hn

theorem placeAll_keys_nodup {srt : List Reply} {fuel : Nat} :
    ∀ (l : List Reply) (acc acc₁ : List Reply × Buckets),
      placeAll srt fuel l acc = some acc₁ →
      (acc.2.map Prod.fst).Nodup → (acc₁.2.map Prod.fst).Nodup := by
  intro l
  induction l with
  | nil =>
    intro acc acc₁ h hn
    injection h with h
    exact h ▸ hn
  | cons r rest ih =>
    intro acc acc₁ h hn
    unfold placeAll at h
    split at h
    · exact absurd h (by simp)
    case h_2 accm hm => exact ih accm acc₁ h (placeReply_keys_nodup hm hn)

/-- C1: the thread assembler partitions the replies.  Whenever
organizeRepliesIntoThreads returns, the top-level list and the children
buckets together are a permutation of the input reply list — every reply is
placed in exactly one bucket, none lost, none duplicated — the bucket keys
are pairwise distinct, and on the example list of the specification the
output is top level [1] with children[1] = [2, 3]. -/
theorem thread_assembler_partitions_replies :
    (∀ (fuel : Nat) (rs top : List Reply) (bs : Buckets),
        organizeRepliesIntoThreads fuel rs = some (top, bs) →
        (top ++ bucketsJoin bs).Perm rs ∧ (bs.map Prod.fst).Nodup)
    ∧ organizeRepliesIntoThreads 3 exReplies
        = some ([mkReply 1 none 1], [(1, [mkReply 2 (some 1) 2, mkReply 3 (some 2) 3])]) := by
  constructor
  · intro fuel rs top bs h
    unfold organizeRepliesIntoThreads at h
    split at h
    · exact Option.noConfusion h
    case h_2 top₀ bs₀ hall =>
      injection h with h
      injection h with htop hbs
      subst htop
      subst hbs
      have hperm := placeAll_some_perm (sortByCreatedAt rs) ([], []) (top₀, bs₀) hall
      simp only [bucketsJoin, List.map_nil, List.flatten_nil, List.append_nil,
        List.nil_append] at hperm
      constructor
      · exact (((sortByCreatedAt_perm top₀).append (bucketsJoin_map_sort bs₀)).trans
          hperm).trans (sortByCreatedAt_perm rs)
      · have hkeys : ((bs₀.map fun kb => (kb.1, sortByCreatedAt kb.2)).map Prod.fst)
            = bs₀.map Prod.fst := by
          rw [List.map_map]
          rfl
        rw [hkeys]
        exact placeAll_keys_nodup (sortByCreatedAt rs) ([], []) (top₀, bs₀) hall (by simp)
  · decide

/-- Closed instance of the C1 theorem at the example reply list. -/
theorem thread_assembler_partitions_replies_witness :
    (([mkReply 1 none 1] ++ bucketsJoin [(1, [mkReply 2 (some 1) 2, mkReply 3 (some 2) 3])]).Perm
        exReplies)
    ∧ ([((1 : Nat), [mkReply 2 (some 1) 2, mkReply 3 (some 2) 3])].map Prod.fst).Nodup :=
  thread_assembler_partitions_replies.1 3 exReplies _ _
    thread_assembler_partitions_replies.2

/-- C7: both output levels of the thread assembler are chronologically
sorted: the top-level list and every children bucket are in ascending order
of the creation timestamps of their replies. -/
theorem thread_assembler_buckets_sorted :
    ∀ (fuel : Nat) (rs top : List Reply) (bs : Buckets),
      organizeRepliesIntoThreads fuel rs = some (top, bs) →
      top.Sorted byCreatedAt ∧ ∀ kb ∈ bs, (kb.2 : List Reply).Sorted byCreatedAt := by
  intro fuel rs top bs h
  unfold organizeRepliesIntoThreads at h
  split at h
  · exact Option.noConfusion h
  case h_2 top₀ bs₀ hall =>
    injection h with h
    injection h with htop hbs
    subst htop
    subst hbs
    refine ⟨sortByCreatedAt_sorted top₀, fun kb hkb => ?_⟩
    obtain ⟨kb₀, hkb₀, hkbeq⟩ := List.mem_map.mp hkb
    subst hkbeq
    exact sortByCreatedAt_sorted kb₀.2

/-- Closed instance of the C7 theorem at the example reply list. -/
theorem thread_assembler_buckets_sorted_witness :
    ([mkReply 1 none 1] : List Reply).Sorted byCreatedAt
    ∧ ∀ kb ∈ ([(1, [mkReply 2 (some 1) 2, mkReply 3 (some 2) 3])] : Buckets),
        (kb.2 : List Reply).Sorted byCreatedAt :=
  thread_assembler_buckets_sorted 3 exReplies [mkReply 1 none 1]
    [(1, [mkReply 2 (some 1) 2, mkReply 3 (some 2) 3])] (by decide)

theorem lookupReply_eq_none {rs : List Reply} {p : Nat}
    (h : ∀ r₁ ∈ rs, r₁.id ≠ p) : lookupReply rs p = none := by
  unfold lookupReply
  refine List.find?_eq_none.mpr fun r hr => ?_
  have := h r (List.mem_reverse.mp hr)
  simpa using this

theorem mem_bucketGet_bucketPush_self (bs : Buckets) (k : Nat) (r : Reply) :
    r ∈ bucketGet (bucketPush bs k r) k := by
  induction bs with
  | nil => simp [bucketPush, bucketGet]
  | cons kb t ih =>
    obtain ⟨k₁, v⟩ := kb
    by_cases hk : (k₁ == k) = true
    · simp [bucketPush, hk, bucketGet]
    · simpa [bucketPush, hk, bucketGet, List.find?] using ih

theorem mem_bucketGet_bucketPush_mono {bs : Buckets} {k : Nat} {x : Reply}
    (j : Nat) (r : Reply) (h : x ∈ bucketGet bs k) :
    x ∈ bucketGet (bucketPush bs j r) k := by
  induction bs with
  | nil => simp [bucketGet, List.find?] at h
  | cons kb t ih =>
    obtain ⟨k₁, v⟩ := kb
    by_cases hj : (k₁ == j) = true
    · by_cases hk : (k₁ == k) = true
      · simp [bucketGet, List.find?, hk] at h
        simp [bucketPush, hj, bucketGet, List.find?, hk, h]
      · simp only [bucketGet, List.find?, hk] at h
        simpa only [bucketPush, hj, if_true, bucketGet, List.find?, hk] using h
    · by_cases hk : (k₁ == k) = true
      · simp only [bucketGet, List.find?, hk] at h
        simpa only [bucketPush, hj, if_false, Bool.false_eq_true, bucketGet,
          List.find?, hk] using h
      · simp only [bucketGet, List.find?, hk] at h
        simp only [bucketPush, hj, if_false, Bool.false_eq_true, bucketGet,
          List.find?, hk]
        exact ih h

theorem placeReply_bucket_mono {srt : List Reply} {fuel : Nat}
    {acc acc₁ : List Reply × Buckets} {r : Reply} {k : Nat} {x : Reply}
    (h : placeReply srt fuel acc r = some acc₁) (hx : x ∈ bucketGet acc.2 k) :
    x ∈ bucketGet acc₁.2 k := by
  unfold placeReply at h
  split at h
  · injection h with h
    subst h
    exact hx
  · split at h
    · injection h with h
      subst h
      exact mem_bucketGet_bucketPush_mono _ r hx
    · split at h
      · exact Option.noConfusion h
      · split at h <;> injection h with h <;> subst h
        · exact mem_bucketGet_bucketPush_mono _ r hx
        · exact hx

theorem placeAll_bucket_mono {srt : List Reply} {fuel : Nat} :
    ∀ (l : List Reply) (acc acc₁ : List Reply × Buckets) (k : Nat) (x : Reply),
      placeAll srt fuel l acc = some acc₁ →
      x ∈ bucketGet acc.2 k → x ∈ bucketGet acc₁.2 k := by
  intro l
  induction l with
  | nil =>
    intro acc acc₁ k x h hx
    injection h with h
    exact h ▸ hx
  | cons r rest ih =>
    intro acc acc₁ k x h hx
    unfold placeAll at h
    split at h
    · exact Option.noConfusion h
    case h_2 accm hm => exact ih accm acc₁ k x h (placeReply_bucket_mono hm hx)

theorem placeAll_orphan_mem {srt : List Reply} {fuel : Nat} :
    ∀ (l : List Reply) (acc acc₁ : List Reply × Buckets) (r : Reply) (p : Nat),
      placeAll srt fuel l acc = some acc₁ → r ∈ l →
      r.parentReplyId = some p → p ≠ 0 → lookupReply srt p = none →
      r ∈ bucketGet acc₁.2 p := by
  intro l
  induction l with
  | nil =>
    intro acc acc₁ r p h hr
    exact absurd hr (List.not_mem_nil r)
  | cons q rest ih =>
    intro acc acc₁ r p h hr hpar hp hlook
    unfold placeAll at h
    split at h
    · exact Option.noConfusion h
    case h_2 accm hm =>
      rcases List.mem_cons.mp hr with rfl | hr
      · have hstep : accm = (acc.1, bucketPush acc.2 p r) := by
          simp only [placeReply] at hm
          rw [hpar] at hm
          rw [show (some p).getD 0 = p from rfl, hlook] at hm
          simp [truthyNum, hp] at hm
          exact hm.symm
        subst hstep
        exact placeAll_bucket_mono rest _ acc₁ p r h
          (mem_bucketGet_bucketPush_self acc.2 p r)
      · exact ih accm acc₁ r p h hr hpar hp hlook

theorem bucketGet_map_sort (bs : Buckets) (k : Nat) :
    bucketGet (bs.map fun kb => (kb.1, sortByCreatedAt kb.2)) k
      = sortByCreatedAt (bucketGet bs k) := by
  induction bs with
  | nil => simp [bucketGet, List.find?, sortByCreatedAt, List.insertionSort]
  | cons kb t ih =>
    obtain ⟨k₁, v⟩ := kb
    by_cases hk : (k₁ == k) = true
    · simp [bucketGet, List.find?, hk]
    · simpa [bucketGet, List.find?, hk] using ih

/-- C2 counterexample: a reply whose declared parent id 42 is absent from the
input is not placed in the top-level list; the assembler files it in the
children bucket keyed by the missing id 42, and the top-level list is empty. -/
theorem orphan_reply_not_top_level :
    organizeRepliesIntoThreads 1 [orphanReply] = some ([], [(42, [orphanReply])])
    ∧ orphanReply ∉ ([] : List Reply) := by
  constructor
  · decide
  · decide

/-- C2 amended: a reply whose declared (nonzero) parent id matches no reply
in the input list is placed in the children bucket keyed by that missing
parent id — not in the top-level list. -/
theorem orphan_reply_goes_to_missing_parent_bucket :
    ∀ (fuel : Nat) (rs top : List Reply) (bs : Buckets) (r : Reply) (p : Nat),
      organizeRepliesIntoThreads fuel rs = some (top, bs) →
      r ∈ rs → r.parentReplyId = some p → p ≠ 0 →
      (∀ r₁ ∈ rs, r₁.id ≠ p) →
      r ∈ bucketGet bs p := by
  intro fuel rs top bs r p h hr hpar hp hids
  unfold organizeRepliesIntoThreads at h
  split at h
  · exact Option.noConfusion h
  case h_2 top₀ bs₀ hall =>
    injection h with h
    injection h with htop hbs
    subst htop
    subst hbs
    have hs : r ∈ sortByCreatedAt rs := ((sortByCreatedAt_perm rs).mem_iff).mpr hr
    have hids₁ : ∀ r₁ ∈ sortByCreatedAt rs, r₁.id ≠ p := fun r₁ h₁ =>
      hids r₁ (((sortByCreatedAt_perm rs).mem_iff).mp h₁)
    have hmem := placeAll_orphan_mem (sortByCreatedAt rs) ([], []) (top₀, bs₀) r p
      hall hs hpar hp (lookupReply_eq_none hids₁)
    rw [bucketGet_map_sort]
    exact ((sortByCreatedAt_perm (bucketGet bs₀ p)).mem_iff).mpr hmem

/-- Closed instance of the amended C2 theorem at a single stray reply. -/
theorem orphan_reply_goes_to_missing_parent_bucket_witness :
    strayReply ∈ bucketGet [(42, [strayReply])] 42 :=
  orphan_reply_goes_to_missing_parent_bucket 1 [strayReply] []
    [(42, [strayReply])] strayReply 42 (by decide) (by decide) (by decide)
    (by decide) (by decide)

theorem cyclic_chase_none :
    ∀ n, chase cyclicReplies n 1 = none ∧ chase cyclicReplies n 2 = none := by
  intro n
  induction n with
  | zero =>
    constructor
    · rw [show chase cyclicReplies 0 1 = if chaseGuard cyclicReplies 1 then none
          else some 1 from rfl, if_pos (by decide)]
    · rw [show chase cyclicReplies 0 2 = if chaseGuard cyclicReplies 2 then none
          else some 2 from rfl, if_pos (by decide)]
  | succ n ih =>
    constructor
    · rw [show chase cyclicReplies (n + 1) 1 = if chaseGuard cyclicReplies 1 then
          chase cyclicReplies n (chaseNext cyclicReplies 1) else some 1 from rfl,
        if_pos (by decide), show chaseNext cyclicReplies 1 = 2 from by decide]
      exact ih.2
    · rw [show chase cyclicReplies (n + 1) 2 = if chaseGuard cyclicReplies 2 then
          chase cyclicReplies n (chaseNext cyclicReplies 2) else some 2 from rfl,
        if_pos (by decide), show chaseNext cyclicReplies 2 = 1 from by decide]
      exact ih.1

/-- C10: the ancestor chase terminates on rank-decreasing (acyclic) parent
references — any rank function that drops across every stored parent link
bounds the number of loop iterations — while on the two-reply parent cycle
the loop guard never fails: the chase returns none at every fuel, so the
source loop runs forever. -/
theorem ancestor_chase_terminates_iff_acyclic :
    (∀ (rs : List Reply) (rank : Nat → Nat),
        (∀ r ∈ rs, truthyNum r.parentReplyId = true →
          rank (r.parentReplyId.getD 0) < rank r.id) →
        ∀ n cur, rank cur < n → (chase rs n cur).isSome = true)
    ∧ (∀ n, chase cyclicReplies n 1 = none) := by
  constructor
  · intro rs rank hrank n
    induction n with
    | zero => exact fun cur hcur => absurd hcur (Nat.not_lt_zero _)
    | succ n ih =>
      intro cur hcur
      by_cases hg : chaseGuard rs cur = true
      · have hlook : ∃ r₁, lookupReply rs cur = some r₁ := by
          rcases hfind : lookupReply rs cur with _ | r₁
          · exfalso
            have := chaseGuard_truthy hg
            rw [hfind] at this
            simp [truthyNum] at this
          · exact ⟨r₁, rfl⟩
        obtain ⟨r₁, hr₁⟩ := hlook
        have hmem : r₁ ∈ rs := by
          have := List.mem_of_find?_eq_some hr₁
          exact List.mem_reverse.mp this
        have hid : r₁.id = cur := by
          have := List.find?_some hr₁
          simpa using this
        have htr : truthyNum r₁.parentReplyId = true := by
          have := chaseGuard_truthy hg
          rw [hr₁] at this
          simpa using this
        have hdrop : rank (chaseNext rs cur) < rank cur := by
          have := hrank r₁ hmem htr
          rw [hid] at this
          unfold chaseNext
          rw [hr₁]
          simpa using this
        have hnext : rank (chaseNext rs cur) < n :=
          Nat.lt_of_lt_of_le hdrop (Nat.lt_succ_iff.mp hcur)
        rw [show chase rs (n + 1) cur = if chaseGuard rs cur then
            chase rs n (chaseNext rs cur) else some cur from rfl, if_pos hg]
        exact ih (chaseNext rs cur) hnext
      · rw [show chase rs (n + 1) cur = if chaseGuard rs cur then
            chase rs n (chaseNext rs cur) else some cur from rfl,
          if_neg (by simpa using hg)]
        rfl
  · exact fun n => (cyclic_chase_none n).1

/-- Closed instance of the C10 theorem: the identity rank certifies the
example list, whose chase from reply 3 succeeds within its rank bound, while
the cyclic list yields none at fuel 5. -/
theorem ancestor_chase_terminates_iff_acyclic_witness :
    (chase exReplies 4 3).isSome = true ∧ chase cyclicReplies 5 1 = none :=
  ⟨ancestor_chase_terminates_iff_acyclic.1 exReplies (fun i => i) (by decide) 4 3
      (by decide),
    ancestor_chase_terminates_iff_acyclic.2 5⟩

/-! ## Quote composer: truncation, stripping, nesting depth -/

theorem jSplit_ne_nil (sep : Char) : ∀ s : JStr, jSplit sep s ≠ [] := by
  intro s
  induction s with
  | nil => simp [jSplit]
  | cons c cs ih =>
    by_cases h : (c == sep) = true
    · simp [jSplit, h]
    · simp only [jSplit, h, Bool.false_eq_true, if_false]
      cases hs : jSplit sep cs with
      | nil => exact absurd hs ih
      | cons h₁ t => simp

theorem jJoinLines_jSplit : ∀ s : JStr, jJoinLines (jSplit '\n' s) = s := by
  intro s
  induction s with
  | nil => rfl
  | cons c cs ih =>
    by_cases h : (c == '\n') = true
    · have hc : c = '\n' := by simpa using h
      subst hc
      simp only [jSplit, beq_self_eq_true, if_true]
      cases hs : jSplit '\n' cs with
      | nil => exact absurd hs (jSplit_ne_nil '\n' cs)
      | cons h₁ t =>
        rw [hs] at ih
        exact congrArg (fun x => '\n' :: x) ih
    · simp only [jSplit, h, Bool.false_eq_true, if_false]
      cases hs : jSplit '\n' cs with
      | nil => exact absurd hs (jSplit_ne_nil '\n' cs)
      | cons h₁ t =>
        rw [hs] at ih
        show jJoinLines ((c :: h₁) :: t) = c :: cs
        cases t with
        | nil => exact congrArg (fun x => c :: x) ih
        | cons t₀ t₁ => exact congrArg (fun x => c :: x) ih

theorem jSplit_append_cons (s : JStr) : ∀ l : JStr, '\n' ∉ l →
    jSplit '\n' (l ++ '\n' :: s) = l :: jSplit '\n' s := by
  intro l
  induction l with
  | nil =>
    intro _
    show jSplit '\n' ('\n' :: s) = [] :: jSplit '\n' s
    simp [jSplit]
  | cons c l ih =>
    intro hmem
    have hne : c ≠ '\n' := fun hc => hmem (hc ▸ List.mem_cons_self c l)
    have hc : (c == '\n') = false := by simpa using hne
    show jSplit '\n' (c :: (l ++ '\n' :: s)) = (c :: l) :: jSplit '\n' s
    simp only [jSplit, hc, Bool.false_eq_true, if_false]
    rw [ih fun hm => hmem (List.mem_cons_of_mem c hm)]

/-- Re-quoting a body produced by the composer quotes only the text written
after the embedded quote: when the at-mention line and the quoted excerpt
hold no newline, stripping the composed body returns the trimmed new text. -/
theorem stripQuote_composeQuotedReply (u c t : JStr) (hu : '\n' ∉ u)
    (hq : '\n' ∉ truncateQuote (stripQuote t)) :
    stripQuote (composeQuotedReply u c t) = jTrim c := by
  have hbody : composeQuotedReply u c t
      = ('@' :: u ++ [':']) ++ '\n' ::
          (('>' :: ' ' :: truncateQuote (stripQuote t)) ++ '\n' :: ('\n' :: c)) := by
    unfold composeQuotedReply
    simp
  have hline₀ : '\n' ∉ '@' :: u ++ [':'] := by
    intro hmem
    rcases List.mem_cons.mp hmem with hmem | hmem
    · exact absurd hmem (by decide)
    · rcases List.mem_append.mp hmem with hmem | hmem
      · exact hu hmem
      · exact absurd (List.mem_singleton.mp hmem) (by decide)
  have hline₁ : '\n' ∉ '>' :: ' ' :: truncateQuote (stripQuote t) := by
    intro hmem
    rcases List.mem_cons.mp hmem with hmem | hmem
    · exact absurd hmem (by decide)
    · rcases List.mem_cons.mp hmem with hmem | hmem
      · exact absurd hmem (by decide)
      · exact hq hmem
  have hsplit : jSplit '\n' (composeQuotedReply u c t)
      = ('@' :: u ++ [':']) :: ('>' :: ' ' :: truncateQuote (stripQuote t))
          :: [] :: jSplit '\n' c := by
    rw [hbody, jSplit_append_cons _ _ hline₀, jSplit_append_cons _ _ hline₁]
    show _ :: _ :: jSplit '\n' ('\n' :: c) = _
    simp [jSplit]
  have hat : jIncludes (composeQuotedReply u c t) '@' = true := by
    rw [hbody]
    simp [jIncludes]
  have hgt : jIncludes (composeQuotedReply u c t) '>' = true := by
    rw [hbody]
    simp [jIncludes]
  have hidx : jFindIdx (fun l => jStartsWith l '>')
      (('@' :: u ++ [':']) :: ('>' :: ' ' :: truncateQuote (stripQuote t))
        :: [] :: jSplit '\n' c) = some 1 := by
    unfold jFindIdx
    rw [if_neg (show ¬ jStartsWith ('@' :: u ++ [':']) '>' = true from
      fun hcon => Bool.false_ne_true hcon)]
    unfold jFindIdx
    rw [if_pos (show jStartsWith ('>' :: ' ' :: truncateQuote (stripQuote t)) '>' = true
      from rfl)]
    rfl
  have hdrop : ((('@' :: u ++ [':']) :: ('>' :: ' ' :: truncateQuote (stripQuote t))
        :: [] :: jSplit '\n' c).drop 1).dropWhile (fun l => jStartsWith l '>')
      = [] :: jSplit '\n' c := by
    show (('>' :: ' ' :: truncateQuote (stripQuote t)) :: [] :: jSplit '\n' c).dropWhile
        (fun l => jStartsWith l '>') = [] :: jSplit '\n' c
    rw [List.dropWhile_cons,
      if_pos (show jStartsWith ('>' :: ' ' :: truncateQuote (stripQuote t)) '>' = true
        from rfl),
      List.dropWhile_cons,
      if_neg (show ¬ jStartsWith ([] : JStr) '>' = true from
        fun hcon => Bool.false_ne_true hcon)]
  have hjoin : jJoinLines ([] :: jSplit '\n' c) = '\n' :: c := by
    cases hs : jSplit '\n' c with
    | nil => exact absurd hs (jSplit_ne_nil '\n' c)
    | cons h₁ t₁ =>
      have hr := jJoinLines_jSplit c
      rw [hs] at hr
      exact congrArg (fun x => '\n' :: x) hr
  have htrim : jTrim ('\n' :: c) = jTrim c := by
    unfold jTrim
    have hws : jsWhitespace '\n' = true := by decide
    simp [List.dropWhile, hws]
  unfold stripQuote
  rw [hat, hgt]
  rw [if_pos (show (true && true) = true from rfl)]
  rw [hsplit, hidx]
  dsimp only
  rw [hdrop, hjoin, htrim]

/-- C6 counterexample: quoting the plain reply body consisting of a line that
already begins with a quote marker (it holds no at-sign, so no stripping
occurs) composes a body whose quote line carries two leading quote markers —
a quote nested two levels deep. -/
theorem composed_body_can_nest_two_levels :
    jSplit '\n' (composeQuotedReply quoteUser quoteNewText quoteTarget)
      = [['@', 'u', ':'], ['>', ' ', '>', ' ', 'h', 'i'], [], ['n', 'e', 'w']]
    ∧ leadingQuoteDepth ['>', ' ', '>', ' ', 'h', 'i'] = 2 := by
  constructor
  · decide
  · decide

/-- C6 amended: the composer truncates a quoted excerpt longer than the
100-character limit to the limit and appends an ellipsis, keeps a shorter
excerpt unchanged, and strips the embedded quote of the target so that
re-quoting a composed body quotes only the trimmed text written after its
quote; but when the text being quoted itself begins with a quote marker the
composed body carries a quote nested two levels deep. -/
theorem quote_composer_truncates_and_strips :
    (∀ t : JStr, quoteLimit < (stripQuote t).length →
        truncateQuote (stripQuote t) = (stripQuote t).take quoteLimit ++ ['.', '.', '.'])
    ∧ (∀ t : JStr, (stripQuote t).length ≤ quoteLimit →
        truncateQuote (stripQuote t) = stripQuote t)
    ∧ (∀ u c t : JStr, '\n' ∉ u → '\n' ∉ truncateQuote (stripQuote t) →
        stripQuote (composeQuotedReply u c t) = jTrim c) := by
  refine ⟨fun t ht => ?_, fun t ht => ?_, stripQuote_composeQuotedReply⟩
  · unfold truncateQuote
    rw [if_pos ht]
  · unfold truncateQuote
    rw [if_neg (Nat.not_lt.mpr ht)]

/-- Closed instance of the amended C6 theorem: the 120-character text is
truncated at 100 with an ellipsis, and stripping a freshly composed body
returns the new text. -/
theorem quote_composer_truncates_and_strips_witness :
    truncateQuote (stripQuote longQuoteText)
      = (stripQuote longQuoteText).take quoteLimit ++ ['.', '.', '.']
    ∧ stripQuote (composeQuotedReply quoteUser quoteNewText strippableTarget)
      = jTrim quoteNewText :=
  ⟨quote_composer_truncates_and_strips.1 longQuoteText (by decide),
    quote_composer_truncates_and_strips.2.2 quoteUser quoteNewText strippableTarget
      (by decide) (by decide)⟩

/-! ## Storage: cascading deletes, votes, solutions, usernames -/

theorem find?_map_key {α : Type} (q : α → Bool) (g : α → α) (hg : ∀ a, q (g a) = q a) :
    ∀ l : List α, (l.map g).find? q = (l.find? q).map g := by
  intro l
  induction l with
  | nil => rfl
  | cons a l ih =>
    by_cases h : q a = true
    · rw [List.map_cons, List.find?_cons_of_pos _ (by rw [hg]; exact h),
        List.find?_cons_of_pos _ h]
      rfl
    · rw [List.map_cons, List.find?_cons_of_neg _ (by rw [hg]; simpa using h),
        List.find?_cons_of_neg _ (by simpa using h), ih]

theorem getPostDoc_modifyPost {db : DB} {pid : Nat} (f : Post → Post)
    (hf : ∀ p, (f p).id = p.id) {post : Post} (h : getPostDoc db pid = some post) :
    getPostDoc (modifyPost db pid f) pid = some (f post) := by
  have hq : ∀ p : Post, (((if p.id == pid then f p else p).id == pid) : Bool)
      = (p.id == pid) := by
    intro p
    by_cases hp : (p.id == pid) = true
    · rw [if_pos hp, hf, hp]
    · rw [if_neg hp]
  have hid : (post.id == pid) = true := by
    have := List.find?_some h
    simpa using this
  show ((db.posts.map fun p => if p.id == pid then f p else p).find?
      fun p => p.id == pid) = some (f post)
  rw [find?_map_key _ _ hq db.posts]
  unfold getPostDoc at h
  rw [h]
  show some (if post.id == pid then f post else post) = some (f post)
  rw [if_pos hid]

theorem getReplyDoc_modifyReply {db : DB} {rid : Nat} (f : Reply → Reply)
    (hf : ∀ r, (f r).id = r.id) {r : Reply} (h : getReplyDoc db rid = some r) :
    getReplyDoc (modifyReply db rid f) rid = some (f r) := by
  have hq : ∀ x : Reply, (((if x.id == rid then f x else x).id == rid) : Bool)
      = (x.id == rid) := by
    intro x
    by_cases hx : (x.id == rid) = true
    · rw [if_pos hx, hf, hx]
    · rw [if_neg hx]
  have hid : (r.id == rid) = true := by
    have := List.find?_some h
    simpa using this
  show ((db.replies.map fun x => if x.id == rid then f x else x).find?
      fun x => x.id == rid) = some (f r)
  rw [find?_map_key _ _ hq db.replies]
  unfold getReplyDoc at h
  rw [h]
  show some (if r.id == rid then f r else r) = some (f r)
  rw [if_pos hid]

theorem getVoteDoc_modifyVote {db : DB} {vid : Nat} (f : Vote → Vote)
    (hf : ∀ v, (f v).id = v.id) {v : Vote} (h : getVoteDoc db vid = some v) :
    getVoteDoc (modifyVote db vid f) vid = some (f v) := by
  have hq : ∀ x : Vote, (((if x.id == vid then f x else x).id == vid) : Bool)
      = (x.id == vid) := by
    intro x
    by_cases hx : (x.id == vid) = true
    · rw [if_pos hx, hf, hx]
    · rw [if_neg hx]
  have hid : (v.id == vid) = true := by
    have := List.find?_some h
    simpa using this
  show ((db.votes.map fun x => if x.id == vid then f x else x).find?
      fun x => x.id == vid) = some (f v)
  rw [find?_map_key _ _ hq db.votes]
  unfold getVoteDoc at h
  rw [h]
  show some (if v.id == vid then f v else v) = some (f v)
  rw [if_pos hid]

/-- C3 counterexample: deleting post 1 removes the post, its reply and the
votes with the postId of the post, but the vote cast on reply 1 of the post
(replyId 1, postId null) survives the cascade. -/
theorem deletePost_leaves_votes_on_replies :
    deletePost c3db 1 "alice" = .ok c3db₁
    ∧ (⟨1, "carol", none, some 1, "upvote"⟩ : Vote) ∈ c3db₁.votes
    ∧ (⟨1, "carol", none, some 1, "upvote"⟩ : Vote).replyId = some 1
    ∧ mkReplyOn 1 1 "bob" false ∈ c3db.replies
    ∧ (mkReplyOn 1 1 "bob" false).postId = 1 := by
  refine ⟨rfl, by decide, by decide, by decide, by decide⟩

/-- C3 amended: a successful deletePost removes the post, every reply whose
postId references the post, and every vote whose postId references the post;
every vote whose postId does not reference the post — in particular every
vote on a reply of the post, whose postId is null — is kept. -/
theorem deletePost_cascade :
    ∀ (db : DB) (id : Nat) (uid : String) (db₁ : DB),
      deletePost db id uid = .ok db₁ →
      (∀ p ∈ db.posts, p.id = id → p ∉ db₁.posts)
      ∧ (∀ r ∈ db.replies, r.postId = id → r ∉ db₁.replies)
      ∧ (∀ v ∈ db.votes, v.postId = some id → v ∉ db₁.votes)
      ∧ (∀ v ∈ db.votes, v.postId ≠ some id → v ∈ db₁.votes) := by
  intro db id uid db₁ h
  unfold deletePost at h
  split at h
  · exact Except.noConfusion h
  case h_2 post hpost =>
    split at h
    · exact Except.noConfusion h
    case isFalse hauth =>
      injection h with h
      subst h
      refine ⟨fun p hp hid hmem => ?_, fun r hr hid hmem => ?_,
        fun v hv hid hmem => ?_, fun v hv hid => ?_⟩
      · have := (List.mem_filter.mp hmem).2
        rw [hid] at this
        simp at this
      · have := (List.mem_filter.mp hmem).2
        rw [hid] at this
        simp at this
      · have := (List.mem_filter.mp hmem).2
        rw [hid] at this
        simp at this
      · exact List.mem_filter.mpr ⟨hv, by simpa using hid⟩

/-- Closed instance of the amended C3 theorem at the one-post state. -/
theorem deletePost_cascade_witness :
    (∀ p ∈ c3db.posts, p.id = 1 → p ∉ c3db₁.posts)
    ∧ (∀ r ∈ c3db.replies, r.postId = 1 → r ∉ c3db₁.replies)
    ∧ (∀ v ∈ c3db.votes, v.postId = some 1 → v ∉ c3db₁.votes)
    ∧ (∀ v ∈ c3db.votes, v.postId ≠ some 1 → v ∈ c3db₁.votes) :=
  deletePost_cascade c3db 1 "alice" c3db₁ rfl

/-- C9: deleteReply by the author of the reply clears the solutionId of the
owning post exactly when the deleted reply is the referenced solution; the
reply itself and every vote on it are removed and the other votes are kept. -/
theorem deleteReply_clears_solution_ref :
    ∀ (db : DB) (id : Nat) (uid : String) (r : Reply) (post : Post) (db₁ : DB),
      getReplyDoc db id = some r → r.authorId = uid → r.postId ≠ 0 →
      getPostDoc db r.postId = some post →
      deleteReply db id uid = .ok db₁ →
      (getPostDoc db₁ r.postId).map Post.solutionId
        = some (if post.solutionId = some id then none else post.solutionId)
      ∧ (∀ r₁ ∈ db₁.replies, r₁.id ≠ id)
      ∧ (∀ v ∈ db.votes, v.replyId = some id → v ∉ db₁.votes)
      ∧ (∀ v ∈ db.votes, v.replyId ≠ some id → v ∈ db₁.votes) := by
  intro db id uid r post db₁ hr hauth hpid hpost h
  have hauth₁ : (r.authorId != uid) = false := by
    rw [hauth]
    simp
  have hpid₁ : (r.postId != 0) = true := by simpa using hpid
  simp only [deleteReply, hr, hauth₁, hpid₁, hpost, Bool.false_eq_true, if_false,
    if_true] at h
  by_cases hsol : post.solutionId = some id
  · have hsol₁ : (post.solutionId == some id) = true := by simpa using hsol
    rw [if_pos hsol₁] at h
    injection h with h
    subst h
    refine ⟨?_, fun r₁ hmem => ?_, fun v hv hvid hmem => ?_, fun v hv hvid => ?_⟩
    · have hstep := getPostDoc_modifyPost
        (fun p => { p with solutionId := none }) (fun p => rfl) hpost
      rw [if_pos hsol]
      show (getPostDoc (modifyPost db r.postId fun p => { p with solutionId := none })
        r.postId).map Post.solutionId = some none
      rw [hstep]
      rfl
    · have := (List.mem_filter.mp hmem).2
      simpa using this
    · have := (List.mem_filter.mp hmem).2
      rw [hvid] at this
      simp at this
    · refine List.mem_filter.mpr ⟨hv, by simpa using hvid⟩
  · have hsol₁ : (post.solutionId == some id) = false := by simpa using hsol
    rw [if_neg (by simp [hsol₁])] at h
    injection h with h
    subst h
    refine ⟨?_, fun r₁ hmem => ?_, fun v hv hvid hmem => ?_, fun v hv hvid => ?_⟩
    · rw [if_neg hsol]
      show (getPostDoc db r.postId).map Post.solutionId = some post.solutionId
      rw [hpost]
      rfl
    · have := (List.mem_filter.mp hmem).2
      simpa using this
    · have := (List.mem_filter.mp hmem).2
      rw [hvid] at this
      simp at this
    · refine List.mem_filter.mpr ⟨hv, by simpa using hvid⟩

/-- Closed instance of the C9 theorem: the author deletes solution reply 2 of
post 1 and the solution reference is cleared together with the vote on the
reply. -/
theorem deleteReply_clears_solution_ref_witness :
    (getPostDoc c9db₁ (mkReplyOn 2 1 "bob" true).postId).map Post.solutionId
      = some (if (mkPost 1 "alice" (some 2)).solutionId = some 2 then none
          else (mkPost 1 "alice" (some 2)).solutionId)
    ∧ (∀ r₁ ∈ c9db₁.replies, r₁.id ≠ 2)
    ∧ (∀ v ∈ c9db.votes, v.replyId = some 2 → v ∉ c9db₁.votes)
    ∧ (∀ v ∈ c9db.votes, v.replyId ≠ some 2 → v ∈ c9db₁.votes) :=
  deleteReply_clears_solution_ref c9db 2 "bob" (mkReplyOn 2 1 "bob" true)
    (mkPost 1 "alice" (some 2)) c9db₁ rfl rfl (by decide) rfl rfl

theorem getPostDoc_set_votes (db : DB) (vs : List Vote) (pid : Nat) :
    getPostDoc { db with votes := vs } pid = getPostDoc db pid := rfl

theorem getReplyDoc_set_votes (db : DB) (vs : List Vote) (rid : Nat) :
    getReplyDoc { db with votes := vs } rid = getReplyDoc db rid := rfl

theorem updateVote_post_up_to_down {db : DB} {vid : Nat} {ex : Vote} {pid : Nat}
    {post : Post} (hvd : getVoteDoc db vid = some ex) (hex : ex.voteType = "upvote")
    (hpid : ex.postId = some pid) (hp : pid ≠ 0)
    (hpost : getPostDoc db pid = some post) :
    updateVote db vid "downvote"
      = .ok ({ ex with voteType := "downvote" },
          modifyVote (modifyPost (modifyPost db pid
                fun p => { p with upvotes := max 0 (post.upvotes - 1) }) pid
              fun p => { p with downvotes := post.downvotes + 1 }) vid
            fun x => { x with voteType := "downvote" }) := by
  have hbne : (ex.voteType != "downvote") = true := by rw [hex]; rfl
  have htr : truthyNum ex.postId = true := by
    rw [hpid]
    simpa [truthyNum] using hp
  have hgd : ex.postId.getD 0 = pid := by rw [hpid]; rfl
  have hup : (ex.voteType == "upvote") = true := by rw [hex]; rfl
  have hdn : (("downvote" : String) == "upvote") = false := by rfl
  simp only [updateVote, hvd, hbne, if_true, htr, hgd, hpost, hup, hdn,
    Bool.false_eq_true, if_false]

theorem updateVote_post_down_to_up {db : DB} {vid : Nat} {ex : Vote} {pid : Nat}
    {post : Post} (hvd : getVoteDoc db vid = some ex) (hex : ex.voteType = "downvote")
    (hpid : ex.postId = some pid) (hp : pid ≠ 0)
    (hpost : getPostDoc db pid = some post) :
    updateVote db vid "upvote"
      = .ok ({ ex with voteType := "upvote" },
          modifyVote (modifyPost (modifyPost db pid
                fun p => { p with downvotes := max 0 (post.downvotes - 1) }) pid
              fun p => { p with upvotes := post.upvotes + 1 }) vid
            fun x => { x with voteType := "upvote" }) := by
  have hbne : (ex.voteType != "upvote") = true := by rw [hex]; rfl
  have htr : truthyNum ex.postId = true := by
    rw [hpid]
    simpa [truthyNum] using hp
  have hgd : ex.postId.getD 0 = pid := by rw [hpid]; rfl
  have hdnv : (ex.voteType == "upvote") = false := by rw [hex]; rfl
  have hupv : (("upvote" : String) == "upvote") = true := by rfl
  simp only [updateVote, hvd, hbne, if_true, htr, hgd, hpost, hdnv, hupv,
    Bool.false_eq_true, if_false]

theorem updateVote_reply_up_to_down {db : DB} {vid : Nat} {ex : Vote} {rid : Nat}
    {reply : Reply} (hvd : getVoteDoc db vid = some ex)
    (hex : ex.voteType = "upvote") (hnone : ex.postId = none)
    (hrid : ex.replyId = some rid) (hr : rid ≠ 0)
    (hreply : getReplyDoc db rid = some reply) :
    updateVote db vid "downvote"
      = .ok ({ ex with voteType := "downvote" },
          modifyVote (modifyReply (modifyReply db rid
                fun x => { x with upvotes := max 0 (reply.upvotes - 1) }) rid
              fun x => { x with downvotes := reply.downvotes + 1 }) vid
            fun x => { x with voteType := "downvote" }) := by
  have hbne : (ex.voteType != "downvote") = true := by rw [hex]; rfl
  have hfp : truthyNum ex.postId = false := by rw [hnone]; rfl
  have htr : truthyNum ex.replyId = true := by
    rw [hrid]
    simpa [truthyNum] using hr
  have hgd : ex.replyId.getD 0 = rid := by rw [hrid]; rfl
  have hup : (ex.voteType == "upvote") = true := by rw [hex]; rfl
  have hdn : (("downvote" : String) == "upvote") = false := by rfl
  simp only [updateVote, hvd, hbne, if_true, hfp, htr, hgd, hreply, hup, hdn,
    Bool.false_eq_true, if_false]

theorem updateVote_reply_down_to_up {db : DB} {vid : Nat} {ex : Vote} {rid : Nat}
    {reply : Reply} (hvd : getVoteDoc db vid = some ex)
    (hex : ex.voteType = "downvote") (hnone : ex.postId = none)
    (hrid : ex.replyId = some rid) (hr : rid ≠ 0)
    (hreply : getReplyDoc db rid = some reply) :
    updateVote db vid "upvote"
      = .ok ({ ex with voteType := "upvote" },
          modifyVote (modifyReply (modifyReply db rid
                fun x => { x with downvotes := max 0 (reply.downvotes - 1) }) rid
              fun x => { x with upvotes := reply.upvotes + 1 }) vid
            fun x => { x with voteType := "upvote" }) := by
  have hbne : (ex.voteType != "upvote") = true := by rw [hex]; rfl
  have hfp : truthyNum ex.postId = false := by rw [hnone]; rfl
  have htr : truthyNum ex.replyId = true := by
    rw [hrid]
    simpa [truthyNum] using hr
  have hgd : ex.replyId.getD 0 = rid := by rw [hrid]; rfl
  have hdnv : (ex.voteType == "upvote") = false := by rw [hex]; rfl
  have hupv : (("upvote" : String) == "upvote") = true := by rfl
  simp only [updateVote, hvd, hbne, if_true, hfp, htr, hgd, hreply, hdnv, hupv,
    Bool.false_eq_true, if_false]

/-- C4 counterexample: when the stored upvote sits next to an upvote counter
that already reads zero, switching the vote to a downvote does not decrement
the old counter by one — the decrement is clamped at zero, the counter stays
0 rather than -1, while the downvote counter still gains one. -/
theorem createVote_switch_clamps_at_zero :
    createVote c4db c4switch = .ok (⟨1, "umar", some 1, none, "downvote"⟩, c4db₁)
    ∧ (getPostDoc c4db 1).map Post.upvotes = some 0
    ∧ (getPostDoc c4db₁ 1).map Post.upvotes = some 0
    ∧ (getPostDoc c4db₁ 1).map Post.downvotes = some 1
    ∧ (0 : Int) ≠ 0 - 1 := by
  exact ⟨rfl, rfl, rfl, rfl, by decide⟩

/-- C4 amended: createVote is idempotent for identical votes (the state is
returned unchanged); on a type switch it writes the old counter decremented
by one but clamped at zero (so a drifted zero counter stays zero) and the new
counter incremented by one, updating the vote record in place; and when no
vote exists it appends a fresh vote and increments the matching counter of
the target by one.  Stated for both post and reply targets. -/
theorem createVote_idempotent_switch_insert :
    (∀ (db : DB) (v : InsertVote) (ex : Vote),
        getVote db v.userId v.postId v.replyId = .ok (some ex) →
        ex.voteType = v.voteType → createVote db v = .ok (ex, db))
    ∧ (∀ (db : DB) (v : InsertVote) (ex : Vote) (pid : Nat) (post : Post)
          (w : Vote) (db₁ : DB),
        getVote db v.userId v.postId v.replyId = .ok (some ex) →
        getVoteDoc db ex.id = some ex →
        ex.postId = some pid → pid ≠ 0 → getPostDoc db pid = some post →
        ex.voteType = "upvote" → v.voteType = "downvote" →
        createVote db v = .ok (w, db₁) →
        w = { ex with voteType := "downvote" }
        ∧ getPostDoc db₁ pid = some { post with
            upvotes := max 0 (post.upvotes - 1), downvotes := post.downvotes + 1 }
        ∧ (getVoteDoc db₁ ex.id).map Vote.voteType = some "downvote")
    ∧ (∀ (db : DB) (v : InsertVote) (ex : Vote) (pid : Nat) (post : Post)
          (w : Vote) (db₁ : DB),
        getVote db v.userId v.postId v.replyId = .ok (some ex) →
        getVoteDoc db ex.id = some ex →
        ex.postId = some pid → pid ≠ 0 → getPostDoc db pid = some post →
        ex.voteType = "downvote" → v.voteType = "upvote" →
        createVote db v = .ok (w, db₁) →
        w = { ex with voteType := "upvote" }
        ∧ getPostDoc db₁ pid = some { post with
            downvotes := max 0 (post.downvotes - 1), upvotes := post.upvotes + 1 }
        ∧ (getVoteDoc db₁ ex.id).map Vote.voteType = some "upvote")
    ∧ (∀ (db : DB) (v : InsertVote) (ex : Vote) (rid : Nat) (reply : Reply)
          (w : Vote) (db₁ : DB),
        getVote db v.userId v.postId v.replyId = .ok (some ex) →
        getVoteDoc db ex.id = some ex →
        ex.postId = none → ex.replyId = some rid → rid ≠ 0 →
        getReplyDoc db rid = some reply →
        ex.voteType = "upvote" → v.voteType = "downvote" →
        createVote db v = .ok (w, db₁) →
        w = { ex with voteType := "downvote" }
        ∧ getReplyDoc db₁ rid = some { reply with
            upvotes := max 0 (reply.upvotes - 1), downvotes := reply.downvotes + 1 }
        ∧ (getVoteDoc db₁ ex.id).map Vote.voteType = some "downvote")
    ∧ (∀ (db : DB) (v : InsertVote) (ex : Vote) (rid : Nat) (reply : Reply)
          (w : Vote) (db₁ : DB),
        getVote db v.userId v.postId v.replyId = .ok (some ex) →
        getVoteDoc db ex.id = some ex →
        ex.postId = none → ex.replyId = some rid → rid ≠ 0 →
        getReplyDoc db rid = some reply →
        ex.voteType = "downvote" → v.voteType = "upvote" →
        createVote db v = .ok (w, db₁) →
        w = { ex with voteType := "upvote" }
        ∧ getReplyDoc db₁ rid = some { reply with
            downvotes := max 0 (reply.downvotes - 1), upvotes := reply.upvotes + 1 }
        ∧ (getVoteDoc db₁ ex.id).map Vote.voteType = some "upvote")
    ∧ (∀ (db : DB) (v : InsertVote) (pid : Nat) (post : Post) (w : Vote) (db₁ : DB),
        getVote db v.userId v.postId v.replyId = .ok none →
        v.postId = some pid → pid ≠ 0 → getPostDoc db pid = some post →
        createVote db v = .ok (w, db₁) →
        w = ⟨nextVoteId db, v.userId, orNull v.postId, orNull v.replyId, v.voteType⟩
        ∧ db₁.votes = db.votes ++ [w]
        ∧ getPostDoc db₁ pid = some (if v.voteType = "upvote"
            then { post with upvotes := post.upvotes + 1 }
            else { post with downvotes := post.downvotes + 1 }))
    ∧ (∀ (db : DB) (v : InsertVote) (rid : Nat) (reply : Reply) (w : Vote) (db₁ : DB),
        getVote db v.userId v.postId v.replyId = .ok none →
        v.postId = none → v.replyId = some rid → rid ≠ 0 →
        getReplyDoc db rid = some reply →
        createVote db v = .ok (w, db₁) →
        w = ⟨nextVoteId db, v.userId, orNull v.postId, orNull v.replyId, v.voteType⟩
        ∧ db₁.votes = db.votes ++ [w]
        ∧ getReplyDoc db₁ rid = some (if v.voteType = "upvote"
            then { reply with upvotes := reply.upvotes + 1 }
            else { reply with downvotes := reply.downvotes + 1 })) := by
  refine ⟨?_, ?_, ?_, ?_, ?_, ?_, ?_⟩
  · intro db v ex hg heq
    have hbne : (ex.voteType != v.voteType) = false := by
      rw [heq]
      simp
    simp only [createVote, hg, hbne, Bool.false_eq_true, if_false]
  · intro db v ex pid post w db₁ hg hvd hpid hp hpost hex hv hcv
    have hbne : (ex.voteType != v.voteType) = true := by rw [hex, hv]; rfl
    simp only [createVote, hg, hbne, if_true] at hcv
    rw [hv] at hcv
    rw [updateVote_post_up_to_down hvd hex hpid hp hpost] at hcv
    injection hcv with hcv
    injection hcv with hw hdb
    subst hw
    subst hdb
    refine ⟨rfl, ?_, ?_⟩
    · show getPostDoc (modifyPost (modifyPost db pid
          fun p => { p with upvotes := max 0 (post.upvotes - 1) }) pid
          fun p => { p with downvotes := post.downvotes + 1 }) pid = _
      exact getPostDoc_modifyPost (fun p => { p with downvotes := post.downvotes + 1 })
        (fun p => rfl) (getPostDoc_modifyPost
          (fun p => { p with upvotes := max 0 (post.upvotes - 1) }) (fun p => rfl) hpost)
    · have hvd₁ : getVoteDoc (modifyPost (modifyPost db pid
          fun p => { p with upvotes := max 0 (post.upvotes - 1) }) pid
          fun p => { p with downvotes := post.downvotes + 1 }) ex.id = some ex := hvd
      rw [getVoteDoc_modifyVote (fun x => { x with voteType := "downvote" })
        (fun x => rfl) hvd₁]
      rfl
  · intro db v ex pid post w db₁ hg hvd hpid hp hpost hex hv hcv
    have hbne : (ex.voteType != v.voteType) = true := by rw [hex, hv]; rfl
    simp only [createVote, hg, hbne, if_true] at hcv
    rw [hv] at hcv
    rw [updateVote_post_down_to_up hvd hex hpid hp hpost] at hcv
    injection hcv with hcv
    injection hcv with hw hdb
    subst hw
    subst hdb
    refine ⟨rfl, ?_, ?_⟩
    · show getPostDoc (modifyPost (modifyPost db pid
          fun p => { p with downvotes := max 0 (post.downvotes - 1) }) pid
          fun p => { p with upvotes := post.upvotes + 1 }) pid = _
      exact getPostDoc_modifyPost (fun p => { p with upvotes := post.upvotes + 1 })
        (fun p => rfl) (getPostDoc_modifyPost
          (fun p => { p with downvotes := max 0 (post.downvotes - 1) }) (fun p => rfl) hpost)
    · have hvd₁ : getVoteDoc (modifyPost (modifyPost db pid
          fun p => { p with downvotes := max 0 (post.downvotes - 1) }) pid
          fun p => { p with upvotes := post.upvotes + 1 }) ex.id = some ex := hvd
      rw [getVoteDoc_modifyVote (fun x => { x with voteType := "upvote" })
        (fun x => rfl) hvd₁]
      rfl
  · intro db v ex rid reply w db₁ hg hvd hnone hrid hr hreply hex hv hcv
    have hbne : (ex.voteType != v.voteType) = true := by rw [hex, hv]; rfl
    simp only [createVote, hg, hbne, if_true] at hcv
    rw [hv] at hcv
    rw [updateVote_reply_up_to_down hvd hex hnone hrid hr hreply] at hcv
    injection hcv with hcv
    injection hcv with hw hdb
    subst hw
    subst hdb
    refine ⟨rfl, ?_, ?_⟩
    · show getReplyDoc (modifyReply (modifyReply db rid
          fun x => { x with upvotes := max 0 (reply.upvotes - 1) }) rid
          fun x => { x with downvotes := reply.downvotes + 1 }) rid = _
      exact getReplyDoc_modifyReply (fun x => { x with downvotes := reply.downvotes + 1 })
        (fun x => rfl) (getReplyDoc_modifyReply
          (fun x => { x with upvotes := max 0 (reply.upvotes - 1) }) (fun x => rfl) hreply)
    · have hvd₁ : getVoteDoc (modifyReply (modifyReply db rid
          fun x => { x with upvotes := max 0 (reply.upvotes - 1) }) rid
          fun x => { x with downvotes := reply.downvotes + 1 }) ex.id = some ex := hvd
      rw [getVoteDoc_modifyVote (fun x => { x with voteType := "downvote" })
        (fun x => rfl) hvd₁]
      rfl
  · intro db v ex rid reply w db₁ hg hvd hnone hrid hr hreply hex hv hcv
    have hbne : (ex.voteType != v.voteType) = true := by rw [hex, hv]; rfl
    simp only [createVote, hg, hbne, if_true] at hcv
    rw [hv] at hcv
    rw [updateVote_reply_down_to_up hvd hex hnone hrid hr hreply] at hcv
    injection hcv with hcv
    injection hcv with hw hdb
    subst hw
    subst hdb
    refine ⟨rfl, ?_, ?_⟩
    · show getReplyDoc (modifyReply (modifyReply db rid
          fun x => { x with downvotes := max 0 (reply.downvotes - 1) }) rid
          fun x => { x with upvotes := reply.upvotes + 1 }) rid = _
      exact getReplyDoc_modifyReply (fun x => { x with upvotes := reply.upvotes + 1 })
        (fun x => rfl) (getReplyDoc_modifyReply
          (fun x => { x with downvotes := max 0 (reply.downvotes - 1) }) (fun x => rfl) hreply)
    · have hvd₁ : getVoteDoc (modifyReply (modifyReply db rid
          fun x => { x with downvotes := max 0 (reply.downvotes - 1) }) rid
          fun x => { x with upvotes := reply.upvotes + 1 }) ex.id = some ex := hvd
      rw [getVoteDoc_modifyVote (fun x => { x with voteType := "upvote" })
        (fun x => rfl) hvd₁]
      rfl
  · intro db v pid post w db₁ hg hv hp hpost hcv
    have htr : truthyNum v.postId = true := by
      rw [hv]
      simpa [truthyNum] using hp
    have hgd : v.postId.getD 0 = pid := by rw [hv]; rfl
    simp only [createVote, hg, htr, if_true, hgd, getPostDoc_set_votes, hpost] at hcv
    by_cases hvt : v.voteType = "upvote"
    · have hvt₁ : (v.voteType == "upvote") = true := by rw [hvt]; rfl
      rw [hvt₁, if_pos rfl] at hcv
      injection hcv with hcv
      injection hcv with hw hdb
      subst hw
      subst hdb
      refine ⟨rfl, rfl, ?_⟩
      rw [if_pos hvt]
      exact getPostDoc_modifyPost (fun p => { p with upvotes := post.upvotes + 1 })
        (fun p => rfl) (show getPostDoc _ pid = some post from hpost)
    · have hvt₁ : (v.voteType == "upvote") = false := by simpa using hvt
      rw [hvt₁] at hcv
      simp only [Bool.false_eq_true, if_false] at hcv
      injection hcv with hcv
      injection hcv with hw hdb
      subst hw
      subst hdb
      refine ⟨rfl, rfl, ?_⟩
      rw [if_neg hvt]
      exact getPostDoc_modifyPost (fun p => { p with downvotes := post.downvotes + 1 })
        (fun p => rfl) (show getPostDoc _ pid = some post from hpost)
  · intro db v rid reply w db₁ hg hvn hv hr hreply hcv
    have hfp : truthyNum v.postId = false := by rw [hvn]; rfl
    have htr : truthyNum v.replyId = true := by
      rw [hv]
      simpa [truthyNum] using hr
    have hgd : v.replyId.getD 0 = rid := by rw [hv]; rfl
    simp only [createVote, hg, hfp, htr, if_true, hgd, getReplyDoc_set_votes,
      hreply, Bool.false_eq_true, if_false] at hcv
    by_cases hvt : v.voteType = "upvote"
    · have hvt₁ : (v.voteType == "upvote") = true := by rw [hvt]; rfl
      rw [hvt₁, if_pos rfl] at hcv
      injection hcv with hcv
      injection hcv with hw hdb
      subst hw
      subst hdb
      refine ⟨rfl, rfl, ?_⟩
      rw [if_pos hvt]
      exact getReplyDoc_modifyReply (fun x => { x with upvotes := reply.upvotes + 1 })
        (fun x => rfl) (show getReplyDoc _ rid = some reply from hreply)
    · have hvt₁ : (v.voteType == "upvote") = false := by simpa using hvt
      rw [hvt₁] at hcv
      simp only [Bool.false_eq_true, if_false] at hcv
      injection hcv with hcv
      injection hcv with hw hdb
      subst hw
      subst hdb
      refine ⟨rfl, rfl, ?_⟩
      rw [if_neg hvt]
      exact getReplyDoc_modifyReply (fun x => { x with downvotes := reply.downvotes + 1 })
        (fun x => rfl) (show getReplyDoc _ rid = some reply from hreply)

/-- Closed instance of the amended C4 theorem: repeating the stored upvote on
the healthy state is a no-op, and switching it moves exactly one unit because
the upvote counter is positive. -/
theorem createVote_idempotent_switch_insert_witness :
    createVote c4wdb c4up = .ok (c4wvote, c4wdb)
    ∧ ((⟨1, "umar", some 1, none, "downvote"⟩ : Vote)
          = { c4wvote with voteType := "downvote" }
        ∧ getPostDoc c4wdb₁ 1 = some { (⟨1, "title", "content", "hardware", "alice",
            1, 1, 0, none⟩ : Post) with upvotes := max 0 (1 - 1), downvotes := 0 + 1 }
        ∧ (getVoteDoc c4wdb₁ c4wvote.id).map Vote.voteType = some "downvote") := by
  constructor
  · exact createVote_idempotent_switch_insert.1 c4wdb c4up c4wvote rfl rfl
  · exact createVote_idempotent_switch_insert.2.1 c4wdb c4switch c4wvote 1
      ⟨1, "title", "content", "hardware", "alice", 1, 1, 0, none⟩
      ⟨1, "umar", some 1, none, "downvote"⟩ c4wdb₁ rfl rfl rfl (by decide) rfl rfl
      rfl rfl

/-- C8: the Firestore createUser stores the user document as given with no
username-uniqueness check, although the shared schema declares usernames
unique: two creations under distinct identity-provider ids and the same
username both end up stored, and the resulting state violates uniqueness.
The username-change route, by contrast, rejects a taken name with 400. -/
theorem createUser_breaks_username_uniqueness :
    u₁ ∈ (createUser (createUser emptyDB u₁).2 u₂).2.users
    ∧ u₂ ∈ (createUser (createUser emptyDB u₁).2 u₂).2.users
    ∧ u₁ ≠ u₂
    ∧ u₁.username = u₂.username
    ∧ ¬ UniqueUsernames (createUser (createUser emptyDB u₁).2 u₂).2
    ∧ patchUsername (createUser (createUser emptyDB u₁).2 u₂).2 "uid-one" "SameName"
        = .error 400 := by
  refine ⟨by decide, by decide, by decide, by decide, fun hu => ?_, rfl⟩
  exact absurd (hu u₁ (by decide) u₂ (by decide) (by decide)) (by decide)

/-! ## Solution invariant -/

theorem getPostDoc_some {db : DB} {pid : Nat} {p : Post}
    (h : getPostDoc db pid = some p) : p ∈ db.posts ∧ p.id = pid := by
  refine ⟨List.mem_of_find?_eq_some h, ?_⟩
  have := List.find?_some h
  simpa using this

theorem getReplyDoc_some {db : DB} {rid : Nat} {r : Reply}
    (h : getReplyDoc db rid = some r) : r ∈ db.replies ∧ r.id = rid := by
  refine ⟨List.mem_of_find?_eq_some h, ?_⟩
  have := List.find?_some h
  simpa using this

theorem getReplyDoc_none {db : DB} {rid : Nat}
    (h : getReplyDoc db rid = none) : ∀ r ∈ db.replies, r.id ≠ rid := by
  intro r hr
  have := List.find?_eq_none.mp h r hr
  simpa using this

theorem mem_modifyReply {db : DB} {rid : Nat} {f : Reply → Reply} {x : Reply}
    (h : x ∈ (modifyReply db rid f).replies) :
    ∃ r, r ∈ db.replies ∧ x = if r.id == rid then f r else r := by
  obtain ⟨r, hr, hx⟩ := List.mem_map.mp h
  exact ⟨r, hr, hx.symm⟩

theorem posts_id_inj {db : DB} (h : (db.posts.map Post.id).Nodup)
    {p₁ p₂ : Post} (h₁ : p₁ ∈ db.posts) (h₂ : p₂ ∈ db.posts)
    (hid : p₁.id = p₂.id) : p₁ = p₂ :=
  List.inj_on_of_nodup_map h h₁ h₂ hid

theorem replies_id_inj {db : DB} (h : (db.replies.map Reply.id).Nodup)
    {r₁ r₂ : Reply} (h₁ : r₁ ∈ db.replies) (h₂ : r₂ ∈ db.replies)
    (hid : r₁.id = r₂.id) : r₁ = r₂ :=
  List.inj_on_of_nodup_map h h₁ h₂ hid

theorem idsWF_modifyPost {db : DB} {pid : Nat} {f : Post → Post}
    (hf : ∀ p, (f p).id = p.id) (h : IdsWF db) : IdsWF (modifyPost db pid f) := by
  obtain ⟨hpn, hrn, hpz, hrz⟩ := h
  refine ⟨?_, hrn, ?_, hrz⟩
  · have hmap : (modifyPost db pid f).posts.map Post.id = db.posts.map Post.id := by
      show (db.posts.map fun p => if p.id == pid then f p else p).map Post.id = _
      rw [List.map_map]
      refine List.map_congr_left fun p _ => ?_
      show (if p.id == pid then f p else p).id = p.id
      by_cases hp : (p.id == pid) = true
      · rw [if_pos hp, hf]
      · rw [if_neg hp]
    rw [hmap]
    exact hpn
  · intro p hp
    obtain ⟨q, hq, hqe⟩ := List.mem_map.mp hp
    subst hqe
    by_cases hqq : (q.id == pid) = true
    · rw [if_pos hqq, hf]
      exact hpz q hq
    · rw [if_neg hqq]
      exact hpz q hq

theorem idsWF_modifyReply {db : DB} {rid : Nat} {f : Reply → Reply}
    (hf : ∀ r, (f r).id = r.id) (h : IdsWF db) : IdsWF (modifyReply db rid f) := by
  obtain ⟨hpn, hrn, hpz, hrz⟩ := h
  refine ⟨hpn, ?_, hpz, ?_⟩
  · have hmap : (modifyReply db rid f).replies.map Reply.id = db.replies.map Reply.id := by
      show (db.replies.map fun r => if r.id == rid then f r else r).map Reply.id = _
      rw [List.map_map]
      refine List.map_congr_left fun r _ => ?_
      show (if r.id == rid then f r else r).id = r.id
      by_cases hr : (r.id == rid) = true
      · rw [if_pos hr, hf]
      · rw [if_neg hr]
    rw [hmap]
    exact hrn
  · intro r hr
    obtain ⟨q, hq, hqe⟩ := List.mem_map.mp hr
    subst hqe
    by_cases hqq : (q.id == rid) = true
    · rw [if_pos hqq, hf]
      exact hrz q hq
    · rw [if_neg hqq]
      exact hrz q hq

theorem idsWF_filters {db : DB} {qr : Reply → Bool} {qv : Vote → Bool}
    (h : IdsWF db) :
    IdsWF { db with votes := db.votes.filter qv, replies := db.replies.filter qr } := by
  obtain ⟨hpn, hrn, hpz, hrz⟩ := h
  refine ⟨hpn, ?_, hpz, ?_⟩
  · exact List.Nodup.sublist (List.Sublist.map Reply.id (List.filter_sublist _)) hrn
  · intro r hr
    exact hrz r (List.mem_of_mem_filter hr)

theorem solutionInv_filters {db : DB} {qr : Reply → Bool} {qv : Vote → Bool}
    (hwf : IdsWF db)
    (hflag : ∀ r ∈ db.replies, r.isSolution = true →
        ∃ p ∈ db.posts, p.id = r.postId ∧ p.solutionId = some r.id) :
    SolutionInv { db with
      votes := db.votes.filter qv
      replies := db.replies.filter qr } := by
  refine ⟨idsWF_filters hwf, ?_⟩
  intro r hr hf
  exact hflag r (List.mem_of_mem_filter hr) hf

theorem solutionInv_mark_core {db D₁ : DB} {postId replyId : Nat} {post : Post}
    {reply : Reply}
    (hwf : IdsWF db)
    (hflag : ∀ r ∈ db.replies, r.isSolution = true →
        ∃ p ∈ db.posts, p.id = r.postId ∧ p.solutionId = some r.id)
    (hpostmem : post ∈ db.posts) (hpostid : post.id = postId)
    (hreplymem : reply ∈ db.replies) (hreplyid : reply.id = replyId)
    (hbel : reply.postId = postId)
    (hD₁wf : IdsWF D₁)
    (hD₁posts : D₁.posts = db.posts)
    (hproj : ∀ x ∈ D₁.replies, ∃ r ∈ db.replies, x.id = r.id ∧ x.postId = r.postId)
    (hclear : ∀ x ∈ D₁.replies, x.isSolution = true →
        x ∈ db.replies ∧ x.isSolution = true ∧ post.solutionId ≠ some x.id) :
    SolutionInv (modifyPost (modifyReply D₁ replyId
        fun r => { r with isSolution := true }) postId
      fun p => { p with solutionId := some replyId }) := by
  obtain ⟨hpn, hrn, hpz, hrz⟩ := hwf
  refine ⟨idsWF_modifyPost (fun p => rfl) (idsWF_modifyReply (fun r => rfl) hD₁wf), ?_⟩
  intro r' hr' hf'
  have hr'X : r' ∈ (modifyReply D₁ replyId
      fun r => { r with isSolution := true }).replies := hr'
  obtain ⟨r₀, hr₀, hr'eq⟩ := mem_modifyReply hr'X
  by_cases hid : (r₀.id == replyId) = true
  · rw [if_pos hid] at hr'eq
    subst hr'eq
    obtain ⟨r₁, hr₁, hid₁, hpid₁⟩ := hproj r₀ hr₀
    have hr₁reply : r₁ = reply := by
      refine replies_id_inj hrn hr₁ hreplymem ?_
      rw [← hid₁, hreplyid]
      simpa using hid
    refine ⟨{ post with solutionId := some replyId }, ?_, ?_, ?_⟩
    · refine List.mem_map.mpr ⟨post, ?_, ?_⟩
      · show post ∈ D₁.posts
        rw [hD₁posts]
        exact hpostmem
      · rw [if_pos (by simpa using hpostid)]
    · show post.id = r₀.postId
      rw [hpostid, hpid₁, hr₁reply, hbel]
    · show some replyId = some r₀.id
      have : r₀.id = replyId := by simpa using hid
      rw [this]
  · rw [if_neg hid] at hr'eq
    rw [hr'eq] at hf' ⊢
    obtain ⟨hr₀db, hr₀flag, hnot⟩ := hclear r₀ hr₀ hf'
    obtain ⟨p', hp', hpid', hsol'⟩ := hflag r₀ hr₀db hr₀flag
    by_cases hpp : p'.id = postId
    · have hppost : p' = post := posts_id_inj hpn hp' hpostmem (by rw [hpp, hpostid])
      rw [hppost] at hsol'
      exact absurd hsol' hnot
    · refine ⟨p', ?_, hpid', hsol'⟩
      refine List.mem_map.mpr ⟨p', ?_, ?_⟩
      · show p' ∈ D₁.posts
        rw [hD₁posts]
        exact hp'
      · rw [if_neg (by simpa using hpp)]

theorem solutionInv_markAsSolution {db db₁ : DB} {postId replyId : Nat}
    (hinv : SolutionInv db) (h : markAsSolution db postId replyId = .ok db₁) :
    SolutionInv db₁ := by
  obtain ⟨hwf, hflag⟩ := hinv
  rcases hpost : getPostDoc db postId with _ | post
  · simp only [markAsSolution, hpost] at h
    exact Except.noConfusion h
  rcases hreply : getReplyDoc db replyId with _ | reply
  · simp only [markAsSolution, hpost, hreply] at h
    exact Except.noConfusion h
  obtain ⟨hpostmem, hpostid⟩ := getPostDoc_some hpost
  obtain ⟨hreplymem, hreplyid⟩ := getReplyDoc_some hreply
  by_cases hbel : (reply.postId != postId) = true
  · simp only [markAsSolution, hpost, hreply, hbel, if_true] at h
    exact Except.noConfusion h
  have hbel' : (reply.postId != postId) = false := by simpa using hbel
  have hbeleq : reply.postId = postId := by simpa using hbel
  by_cases htr : truthyNum post.solutionId = true
  · rcases hold : getReplyDoc db (post.solutionId.getD 0) with _ | old
    · simp only [markAsSolution, hpost, hreply, hbel', Bool.false_eq_true, if_false,
        htr, if_true, hold] at h
      injection h with h
      subst h
      refine solutionInv_mark_core hwf hflag hpostmem hpostid hreplymem hreplyid hbeleq
        hwf rfl (fun x hx => ⟨x, hx, rfl, rfl⟩) ?_
      intro x hx hfx
      refine ⟨hx, hfx, fun hsol => ?_⟩
      have hsid : post.solutionId.getD 0 = x.id := by rw [hsol]; rfl
      exact getReplyDoc_none hold x hx hsid.symm
    · simp only [markAsSolution, hpost, hreply, hbel', Bool.false_eq_true, if_false,
        htr, if_true, hold] at h
      injection h with h
      subst h
      obtain ⟨holdmem, holdid⟩ := getReplyDoc_some hold
      refine solutionInv_mark_core hwf hflag hpostmem hpostid hreplymem hreplyid hbeleq
        (idsWF_modifyReply (fun r => rfl) hwf) rfl ?_ ?_
      · intro x hx
        obtain ⟨r₁, hr₁, hxeq⟩ := mem_modifyReply hx
        by_cases h₁ : (r₁.id == old.id) = true
        · rw [if_pos h₁] at hxeq
          subst hxeq
          exact ⟨r₁, hr₁, rfl, rfl⟩
        · rw [if_neg h₁] at hxeq
          rw [hxeq]
          exact ⟨r₁, hr₁, rfl, rfl⟩
      · intro x hx hfx
        obtain ⟨r₁, hr₁, hxeq⟩ := mem_modifyReply hx
        by_cases h₁ : (r₁.id == old.id) = true
        · rw [if_pos h₁] at hxeq
          subst hxeq
          simp at hfx
        · rw [if_neg h₁] at hxeq
          rw [hxeq] at hfx ⊢
          refine ⟨hr₁, hfx, fun hsol => ?_⟩
          have hsid : post.solutionId.getD 0 = r₁.id := by rw [hsol]; rfl
          have hro : r₁.id = old.id := by rw [← hsid, holdid]
          exact absurd (by simp [hro]) h₁
  · have htr' : truthyNum post.solutionId = false := by simpa using htr
    simp only [markAsSolution, hpost, hreply, hbel', Bool.false_eq_true, if_false,
      htr'] at h
    injection h with h
    subst h
    refine solutionInv_mark_core hwf hflag hpostmem hpostid hreplymem hreplyid hbeleq
      hwf rfl (fun x hx => ⟨x, hx, rfl, rfl⟩) ?_
    intro x hx hfx
    refine ⟨hx, hfx, fun hsol => ?_⟩
    rw [hsol] at htr'
    have hxz : x.id ≠ 0 := hwf.2.2.2 x hx
    simp [truthyNum, hxz] at htr'

theorem solutionInv_removeSolution {db db₁ : DB} {postId : Nat}
    (hinv : SolutionInv db) (h : removeSolution db postId = .ok db₁) :
    SolutionInv db₁ := by
  obtain ⟨hwf, hflag⟩ := hinv
  rcases hpost : getPostDoc db postId with _ | post
  · simp only [removeSolution, hpost] at h
    exact Except.noConfusion h
  obtain ⟨hpostmem, hpostid⟩ := getPostDoc_some hpost
  by_cases htr : truthyNum post.solutionId = true
  · rcases hold : getReplyDoc db (post.solutionId.getD 0) with _ | old
    · simp only [removeSolution, hpost, htr, if_true, hold] at h
      injection h with h
      subst h
      refine ⟨idsWF_modifyPost (fun p => rfl) hwf, ?_⟩
      intro r' hr' hf'
      obtain ⟨p', hp', hpid', hsol'⟩ := hflag r' hr' hf'
      by_cases hpp : p'.id = postId
      · have hppost : p' = post := posts_id_inj hwf.1 hp' hpostmem (by rw [hpp, hpostid])
        rw [hppost] at hsol'
        have hsid : post.solutionId.getD 0 = r'.id := by rw [hsol']; rfl
        exact absurd hsid.symm (getReplyDoc_none hold r' hr')
      · exact ⟨p', List.mem_map.mpr ⟨p', hp', by rw [if_neg (by simpa using hpp)]⟩,
          hpid', hsol'⟩
    · simp only [removeSolution, hpost, htr, if_true, hold] at h
      injection h with h
      subst h
      obtain ⟨holdmem, holdid⟩ := getReplyDoc_some hold
      refine ⟨idsWF_modifyPost (fun p => rfl)
        (idsWF_modifyReply (fun r => rfl) hwf), ?_⟩
      intro r' hr' hf'
      obtain ⟨r₁, hr₁, hr'eq⟩ := mem_modifyReply hr'
      by_cases h₁ : (r₁.id == old.id) = true
      · rw [if_pos h₁] at hr'eq
        subst hr'eq
        simp at hf'
      · rw [if_neg h₁] at hr'eq
        rw [hr'eq] at hf' ⊢
        obtain ⟨p', hp', hpid', hsol'⟩ := hflag r₁ hr₁ hf'
        by_cases hpp : p'.id = postId
        · have hppost : p' = post := posts_id_inj hwf.1 hp' hpostmem
            (by rw [hpp, hpostid])
          rw [hppost] at hsol'
          have hsid : post.solutionId.getD 0 = r₁.id := by rw [hsol']; rfl
          have hro : r₁.id = old.id := by rw [← hsid, holdid]
          exact absurd (by simp [hro]) h₁
        · exact ⟨p', List.mem_map.mpr ⟨p', hp', by rw [if_neg (by simpa using hpp)]⟩,
            hpid', hsol'⟩
  · have htr' : truthyNum post.solutionId = false := by simpa using htr
    simp only [removeSolution, hpost, htr', Bool.false_eq_true, if_false] at h
    injection h with h
    subst h
    exact ⟨hwf, hflag⟩

theorem solutionInv_deleteReply {db db₁ : DB} {rid : Nat} {uid : String}
    (hinv : SolutionInv db) (h : deleteReply db rid uid = .ok db₁) :
    SolutionInv db₁ := by
  obtain ⟨hwf, hflag⟩ := hinv
  rcases hreply : getReplyDoc db rid with _ | reply
  · simp only [deleteReply, hreply] at h
    exact Except.noConfusion h
  obtain ⟨hreplymem, hreplyid⟩ := getReplyDoc_some hreply
  by_cases hauth : (reply.authorId != uid) = true
  · simp only [deleteReply, hreply, hauth, if_true] at h
    exact Except.noConfusion h
  have hauth' : (reply.authorId != uid) = false := by simpa using hauth
  by_cases hpz : (reply.postId != 0) = true
  · rcases hpost : getPostDoc db reply.postId with _ | post
    · simp only [deleteReply, hreply, hauth', Bool.false_eq_true, if_false, hpz,
        if_true, hpost] at h
      injection h with h
      subst h
      exact solutionInv_filters hwf hflag
    · by_cases hsol : (post.solutionId == some rid) = true
      · simp only [deleteReply, hreply, hauth', Bool.false_eq_true, if_false, hpz,
          if_true, hpost, hsol] at h
        injection h with h
        subst h
        obtain ⟨hpostmem, hpostid⟩ := getPostDoc_some hpost
        refine ⟨idsWF_filters (idsWF_modifyPost (fun p => rfl) hwf), ?_⟩
        intro r' hr' hf'
        have hmf := List.mem_filter.mp hr'
        have hr'mem : r' ∈ db.replies := hmf.1
        have hr'ne : r'.id ≠ rid := by simpa using hmf.2
        obtain ⟨p', hp', hpid', hsol'⟩ := hflag r' hr'mem hf'
        by_cases hpp : p'.id = reply.postId
        · have hppost : p' = post := posts_id_inj hwf.1 hp' hpostmem
            (by rw [hpp, hpostid])
          rw [hppost] at hsol'
          have hps : post.solutionId = some rid := by simpa using hsol
          exact absurd (Option.some.inj (hps.symm.trans hsol')).symm hr'ne
        · exact ⟨p', List.mem_map.mpr ⟨p', hp', by rw [if_neg (by simpa using hpp)]⟩,
            hpid', hsol'⟩
      · have hsol' : (post.solutionId == some rid) = false := by simpa using hsol
        simp only [deleteReply, hreply, hauth', Bool.false_eq_true, if_false, hpz,
          if_true, hpost, hsol'] at h
        injection h with h
        subst h
        exact solutionInv_filters hwf hflag
  · have hpz' : (reply.postId != 0) = false := by simpa using hpz
    simp only [deleteReply, hreply, hauth', Bool.false_eq_true, if_false, hpz'] at h
    injection h with h
    subst h
    exact solutionInv_filters hwf hflag

/-- C5: starting from a state satisfying the solution invariant, any sequence
of markAsSolution, removeSolution and deleteReply transitions keeps the
invariant — marking a new solution clears the flag of the previous one first
— and in every such state a post has at most one flagged reply and it is the
one the solutionId of the post references. -/
theorem solution_uniqueness_invariant :
    (∀ db db₁ : DB, SolutionInv db → Relation.ReflTransGen SolStep db db₁ →
        SolutionInv db₁)
    ∧ (∀ db : DB, SolutionInv db → ∀ p ∈ db.posts, ∀ r₁ ∈ db.replies,
        ∀ r₂ ∈ db.replies, r₁.postId = p.id → r₂.postId = p.id →
        r₁.isSolution = true → r₂.isSolution = true →
        r₁ = r₂ ∧ p.solutionId = some r₁.id) := by
  have hstep : ∀ db db₁ : DB, SolutionInv db → SolStep db db₁ → SolutionInv db₁ := by
    intro db db₁ hinv hs
    rcases hs with ⟨pid, rid, h⟩ | ⟨pid, h⟩ | ⟨rid, uid, h⟩
    · exact solutionInv_markAsSolution hinv h
    · exact solutionInv_removeSolution hinv h
    · exact solutionInv_deleteReply hinv h
  constructor
  · intro db db₁ hinv hsteps
    induction hsteps with
    | refl => exact hinv
    | tail hab hbc ih => exact hstep _ _ ih hbc
  · intro db hinv p hp r₁ hr₁ r₂ hr₂ hp₁ hp₂ hf₁ hf₂
    obtain ⟨⟨hpn, hrn, hpz, hrz⟩, hflag⟩ := hinv
    obtain ⟨q₁, hq₁, hqid₁, hqsol₁⟩ := hflag r₁ hr₁ hf₁
    obtain ⟨q₂, hq₂, hqid₂, hqsol₂⟩ := hflag r₂ hr₂ hf₂
    have hq₁p : q₁ = p := posts_id_inj hpn hq₁ hp (by rw [hqid₁, hp₁])
    have hq₂p : q₂ = p := posts_id_inj hpn hq₂ hp (by rw [hqid₂, hp₂])
    rw [hq₁p] at hqsol₁
    rw [hq₂p] at hqsol₂
    have hid : r₁.id = r₂.id := Option.some.inj (hqsol₁.symm.trans hqsol₂)
    exact ⟨replies_id_inj hrn hr₁ hr₂ hid, hqsol₁⟩

/-- Closed instance of the C5 theorem: the invariant survives marking reply 2
as the solution of post 1, and in the reached state the flagged reply is the
referenced one. -/
theorem solution_uniqueness_invariant_witness :
    SolutionInv c5db₁
    ∧ (mkReplyOn 2 1 "bob" true = mkReplyOn 2 1 "bob" true
        ∧ (mkPost 1 "alice" (some 2)).solutionId
            = some (mkReplyOn 2 1 "bob" true).id) := by
  constructor
  · exact solution_uniqueness_invariant.1 c5db c5db₁ (by decide)
      (Relation.ReflTransGen.single (Or.inl ⟨1, 2, rfl⟩))
  · exact solution_uniqueness_invariant.2 c5db₁ (by decide)
      (mkPost 1 "alice" (some 2)) (by decide) (mkReplyOn 2 1 "bob" true) (by decide)
      (mkReplyOn 2 1 "bob" true) (by decide) rfl rfl rfl rfl

end ICTutor
